import Mathlib

/-!
QT2120 touch slider / encoder driver (`keyboards/rgbkb/mun/touch_encoder.c`)

A shallow embedding of the driver and a verification of its specification.

Conventions of the embedding
* `uint8_t` and `uint16_t` values are natural numbers; every store is reduced
  `% 256` or `% 65536` where the C code can overflow.  Signed `int` arithmetic is
  done in `Int`, with `Int.tdiv` for the truncating C division.
* The global variables of the driver form the record `State`; every C function
  of the driver becomes a function returning the new state together with the
  list of externally visible events (bus transactions, diagnostics, user
  callbacks) in the order in which the C code performs them.
* A call of a driver entry point receives the absolute tick count `now` of the
  host at the time of the call; `timer_read` truncates it to 16 bits.  The tick
  does not advance while one call is running.
* The outcome of each bus transaction is an input of the call that performs it.
-/

namespace TouchEncoder

/-! ## Constants -/

/-- Bits of the detection status byte. -/
def CALIBRATION_BIT : Nat := 0x80
def OVERFLOW_BIT : Nat := 0x40
def SLIDER_BIT : Nat := 0x02
def UINT8_MAX : Nat := 255

/-- QT2120 register numbers (the values the C `enum` assigns). -/
def QT_DETECTION_STATUS : Nat := 2
def QT_CALIBRATE : Nat := 6
def QT_TTD : Nat := 9
def QT_ATD : Nat := 10
def QT_DI : Nat := 11
def QT_TRD : Nat := 12
def QT_SLIDER_OPTION : Nat := 14

/-- Compile-time configuration.  `TOUCH_UPDATE_INTERVAL` has the default of
`touch_encoder.c`; the other four macros come from headers and are parameters. -/
structure Config where
  TOUCH_UPDATE_INTERVAL : Nat := 33
  TOUCH_TERM : Nat
  TOUCH_SEGMENTS : Nat
  TOUCH_DEADZONE : Nat
  ENCODER_RESOLUTION : Nat
  deriving DecidableEq, Repr

/-! ## Data model -/

/-- The four bytes read from `QT_DETECTION_STATUS`: `b0` detection status,
`b1`, `b2` key status (high, low), `b3` slider position. -/
structure Regs where
  b0 : Nat
  b1 : Nat
  b2 : Nat
  b3 : Nat
  deriving DecidableEq, Repr

/-- The global variables of `touch_encoder.c`. -/
structure State where
  touch_initialized : Bool
  touch_raw : Regs
  touch_processed : Regs
  touch_lastPosition : Nat
  touch_timer : Nat
  touch_update_timer : Nat
  deriving DecidableEq, Repr

/-- The values of the globals at program start. -/
def State.init : State :=
  { touch_initialized := false
    touch_raw := ⟨0, 0, 0, 0⟩
    touch_processed := ⟨0, 0, 0, 0⟩
    touch_lastPosition := 0
    touch_timer := 0
    touch_update_timer := 0 }

/-- All bytes of a register snapshot are in `0..255`. -/
def Regs.WF (r : Regs) : Prop := r.b0 < 256 ∧ r.b1 < 256 ∧ r.b2 < 256 ∧ r.b3 < 256

instance (r : Regs) : Decidable r.WF := by unfold Regs.WF; infer_instance

/-- Externally visible actions of the driver. -/
inductive Event where
  | i2c_init
  | i2c_writeReg (reg data : Nat) (ok : Bool)
  | i2c_readReg (reg len : Nat) (ok : Bool)
  | xprintf_write_failed (reg : Nat)
  | xprintf_read_failed (reg : Nat)
  | xprintf_calibration (v : Nat)
  | xprintf_overflow (v : Nat)
  | touch_encoder_tapped_user (index section_ : Nat)
  | touch_encoder_update_user (index : Nat) (clockwise : Bool)
  | touch_encoder_update_user_raw (index : Nat)
  deriving DecidableEq, Repr

/-- The three user callbacks. -/
def Event.isCallback : Event → Bool
  | .touch_encoder_tapped_user _ _ => true
  | .touch_encoder_update_user _ _ => true
  | .touch_encoder_update_user_raw _ => true
  | _ => false

/-- The tap callback. -/
def Event.isTap : Event → Bool
  | .touch_encoder_tapped_user _ _ => true
  | _ => false

/-- The rotation callback. -/
def Event.isRotate : Event → Bool
  | .touch_encoder_update_user _ _ => true
  | _ => false

/-- A bus transaction, read or write. -/
def Event.isBus : Event → Bool
  | .i2c_writeReg _ _ _ => true
  | .i2c_readReg _ _ _ => true
  | _ => false

/-- A bus read. -/
def Event.isRead : Event → Bool
  | .i2c_readReg _ _ _ => true
  | _ => false

/-! ## Timer primitives -/

/-- Modelled from the spec: `timer_read` of `timer.h` (not under src/), the
absolute tick count of the host truncated to the 16-bit tick counter. -/
def timer_read (now : Nat) : Nat := now % 65536

/-- Modelled from the spec: `timer_expired` of `timer.h` (not under src/),
`(uint16_t)(current - future) < UINT16_MAX / 2`, i.e. the 16-bit difference is
below 32767. -/
def timer_expired (current future : Nat) : Bool :=
  decide ((((current : Int) - (future : Int)) % 65536) < 32767)

/-- Conversion of an `int` to `int8_t` (two's complement wrap-around). -/
def toInt8 (x : Int) : Int := (x + 128) % 256 - 128

/-! ## Bus transport -/

/-- The C function `write_register8`: one register write; `ok` is the outcome of the
transaction.  A failure is logged. -/
def write_register8 (ok : Bool) (address data : Nat) : Bool × List Event :=
  (ok, Event.i2c_writeReg address data ok ::
        (if ok then [] else [Event.xprintf_write_failed address]))

/-- Modelled from the spec: `i2c_readReg` of `i2c_master.h` (not under src/), a
block read into the caller's buffer that reports success or failure.
`rd = some r` is a successful transfer delivering the bytes `r`; on a failed
transfer no state change occurs, the buffer is left as it was. -/
def i2c_readReg (rd : Option Regs) (buf : Regs) : Bool × Regs :=
  match rd with
  | some r => (true, r)
  | none => (false, buf)

/-- The C function `read_register`: one block read into `buf`.  A failure is
logged and reported as `false`. -/
def read_register (rd : Option Regs) (address length : Nat) (buf : Regs) :
    Bool × Regs × List Event :=
  let st := i2c_readReg rd buf
  (st.1, st.2, Event.i2c_readReg address length st.1 ::
    (if st.1 then [] else [Event.xprintf_read_failed address]))

/-! ## Sensor session -/

/-- The C function `touch_encoder_calibrate`; `ok` is the outcome of the write if it happens. -/
def touch_encoder_calibrate (ok : Bool) (s : State) : State × List Event :=
  if !s.touch_initialized then (s, [])
  else (s, (write_register8 ok QT_CALIBRATE 0x01).2)

/-- The C function `touch_encoder_init`; `w i` is the outcome of the `i`-th write transaction
that the call attempts (`i = 0, 1, ...`). -/
def touch_encoder_init (w : Nat → Bool) (s : State) : State × List Event :=
  let r0 := write_register8 (w 0) QT_SLIDER_OPTION 0x80
  let r1 := write_register8 (w 1) QT_TTD 4
  let r2 := write_register8 (w 2) QT_ATD 1
  let r3 := write_register8 (w 3) QT_DI 4
  let r4 := write_register8 (w 4) QT_TRD 0
  let s1 : State :=
    { s with touch_initialized := ((((r0.1 && r1.1) && r2.1) && r3.1) && r4.1) }
  let c := touch_encoder_calibrate (w 5) s1
  (c.1, Event.i2c_init :: (r0.2 ++ r1.2 ++ r2.2 ++ r3.2 ++ r4.2 ++ c.2))

/-! ## Gesture decoder -/

/-- The zone computed by `touch_encoder_update_tapped` for a position byte:
`uint8_t section = touch_processed[3] / (UINT8_MAX / TOUCH_SEGMENTS + 1)`. -/
def tap_section (cfg : Config) (position : Nat) : Nat :=
  (position / (UINT8_MAX / cfg.TOUCH_SEGMENTS + 1)) % 256

/-- The C function `touch_encoder_update_tapped`. -/
def touch_encoder_update_tapped (cfg : Config) (now : Nat) (s : State) :
    State × List Event :=
  if s.touch_processed.b0 &&& SLIDER_BIT ≠ 0 then
    ({ s with touch_timer := (timer_read now + cfg.TOUCH_TERM) % 65536 }, [])
  else if timer_expired (timer_read now) s.touch_timer then (s, [])
  else (s, [Event.touch_encoder_tapped_user 0 (tap_section cfg s.touch_processed.b3)])

/-- The `int8_t delta` of `touch_encoder_update_position`. -/
def position_delta (cfg : Config) (processed3 raw3 : Nat) : Int :=
  toInt8 (Int.tdiv ((processed3 : Int) - (raw3 : Int)) (cfg.ENCODER_RESOLUTION : Int))

/-- The `uint8_t u_delta` of `touch_encoder_update_position`. -/
def position_u_delta (delta : Int) : Nat :=
  ((if delta < 0 then -delta else delta) % 256).toNat

/-- The C function `touch_encoder_update_position`. -/
def touch_encoder_update_position (cfg : Config) (now : Nat) (s : State) :
    State × List Event :=
  let armed := !timer_expired (timer_read now) s.touch_timer
  if armed ∧
      (((s.touch_raw.b3 : Int) - (s.touch_processed.b3 : Int)) % 256) ≤
        (cfg.TOUCH_DEADZONE : Int) then (s, [])
  else
    let s1 : State := if armed then { s with touch_timer := timer_read now } else s
    let delta := position_delta cfg s.touch_processed.b3 s.touch_raw.b3
    let clockwise := decide (s.touch_raw.b3 > s.touch_processed.b3)
    if delta = 0 then (s1, [])
    else
      let p3 : Nat :=
        (((s.touch_processed.b3 : Int) - delta * (cfg.ENCODER_RESOLUTION : Int)) % 256).toNat
      let s2 : State := { s1 with touch_processed := { s1.touch_processed with b3 := p3 } }
      (s2, Event.touch_encoder_update_user_raw 0 ::
            List.replicate (position_u_delta delta) (Event.touch_encoder_update_user 0 clockwise))

/-- The diagnostics printed by the status-change block of `touch_encoder_update`
for the changed bits `delta` and the new status byte. -/
def status_diagnostics (delta status : Nat) : List Event :=
  (if delta &&& CALIBRATION_BIT ≠ 0 then
    [Event.xprintf_calibration ((status >>> 7) &&& 1)] else []) ++
  (if delta &&& OVERFLOW_BIT ≠ 0 then
    [Event.xprintf_overflow ((status >>> 6) &&& 1)] else [])

/-- The status-change block of `touch_encoder_update` (the first `if`). -/
def status_change (cfg : Config) (now : Nat) (s : State) : State × List Event :=
  if s.touch_raw.b0 ≠ s.touch_processed.b0 then
    let delta := s.touch_raw.b0 ^^^ s.touch_processed.b0
    let s1 : State := { s with touch_processed := { s.touch_processed with b0 := s.touch_raw.b0 } }
    if delta &&& SLIDER_BIT ≠ 0 then
      let s2 : State :=
        { s1 with touch_processed := { s1.touch_processed with b3 := s1.touch_raw.b3 } }
      let t := touch_encoder_update_tapped cfg now s2
      (t.1, status_diagnostics delta s1.touch_processed.b0 ++ t.2)
    else (s1, status_diagnostics delta s1.touch_processed.b0)
  else (s, [])

/-- The position block of `touch_encoder_update` (the second `if`). -/
def position_change (cfg : Config) (now : Nat) (s : State) : State × List Event :=
  if s.touch_raw.b0 &&& SLIDER_BIT ≠ 0 ∧ s.touch_processed.b3 ≠ s.touch_raw.b3 then
    touch_encoder_update_position cfg now s
  else (s, [])

/-- The scheduler test of `touch_encoder_update`: the call goes on to the bus
read.  With `TOUCH_UPDATE_INTERVAL = 0` the timer test is compiled out. -/
def poll_due (cfg : Config) (now : Nat) (s : State) : Bool :=
  s.touch_initialized &&
    (cfg.TOUCH_UPDATE_INTERVAL == 0 || timer_expired (timer_read now) s.touch_update_timer)

/-- The first statements of an executed `touch_encoder_update`: reschedule the
poll timer (compiled in when `TOUCH_UPDATE_INTERVAL > 0`), read the four
registers into `touch_raw`, copy the two key bytes.  The result of
`read_register` is not looked at. -/
def poll_read (cfg : Config) (now : Nat) (rd : Option Regs) (s : State) :
    State × List Event :=
  let s0 : State :=
    if cfg.TOUCH_UPDATE_INTERVAL > 0 then
      { s with touch_update_timer := (timer_read now + cfg.TOUCH_UPDATE_INTERVAL) % 65536 }
    else s
  let r := read_register rd QT_DETECTION_STATUS 4 s0.touch_raw
  let s1 : State := { s0 with touch_raw := r.2.1 }
  ({ s1 with touch_processed :=
      { s1.touch_processed with b1 := s1.touch_raw.b1, b2 := s1.touch_raw.b2 } }, r.2.2)

/-- The part of `touch_encoder_update` after the scheduler test: bus read and key
copy, status block, position block. -/
def poll_body (cfg : Config) (now : Nat) (rd : Option Regs) (s : State) :
    State × List Event :=
  let r := poll_read cfg now rd s
  let a := status_change cfg now r.1
  let b := position_change cfg now a.1
  (b.1, r.2 ++ a.2 ++ b.2)

/-- The C function `touch_encoder_update`, called at tick `now`; `rd` is the outcome of the
bus read if the call performs one. -/
def touch_encoder_update (cfg : Config) (now : Nat) (rd : Option Regs) (s : State) :
    State × List Event :=
  if poll_due cfg now s then poll_body cfg now rd s else (s, [])

/-! ## Status accessors -/

/-- The C function `touch_encoder_status`: the value returned and the globals after the call. -/
def touch_encoder_status (s : State) : Nat × State := (s.touch_processed.b0, s)

/-- The C function `touch_encoder_position`. -/
def touch_encoder_position (s : State) : Nat × State := (s.touch_processed.b3, s)

/-- The C function `touch_encoder_keys`: `data = touch_processed[1]; (data << 8) | touch_processed[2]`
returned as `uint16_t`. -/
def touch_encoder_keys (s : State) : Nat × State :=
  (((s.touch_processed.b1 <<< 8) ||| s.touch_processed.b2) % 65536, s)

/-! ## Sequences of calls -/

/-- One call of `touch_encoder_update`: its tick and the outcome of the bus read. -/
structure Poll where
  now : Nat
  rd : Option Regs
  deriving DecidableEq, Repr

/-- Run a sequence of `touch_encoder_update` calls, collecting the events. -/
def run (cfg : Config) : State → List Poll → State × List Event
  | s, [] => (s, [])
  | s, p :: ps =>
    let a := touch_encoder_update cfg p.now p.rd s
    let b := run cfg a.1 ps
    (b.1, a.2 ++ b.2)

/-- Every call of the sequence passes the scheduler test. -/
def all_due (cfg : Config) : State → List Poll → Bool
  | _, [] => true
  | s, p :: ps => poll_due cfg p.now s && all_due cfg (touch_encoder_update cfg p.now p.rd s).1 ps

/-! ## Counting events -/

/-- The number of `touch_encoder_tapped_user` calls among the events. -/
def tap_calls (ev : List Event) : Nat := ev.countP Event.isTap

/-- The number of `touch_encoder_update_user` calls among the events. -/
def rotate_calls (ev : List Event) : Nat := ev.countP Event.isRotate

/-- The user callbacks among the events, in order. -/
def callbacks (ev : List Event) : List Event := ev.filter Event.isCallback

/-- The number of bus reads among the events. -/
def bus_reads (ev : List Event) : Nat := ev.countP Event.isRead

/-- The raw snapshot a call works on once its bus read has returned. -/
def raw_seen (rd : Option Regs) (s : State) : Regs :=
  (read_register rd QT_DETECTION_STATUS 4 s.touch_raw).2.1

/-! ## Default keymap (`keymaps/default/keymap.c`) -/

/-- The RGB functions the default keymap dispatches to. -/
inductive RgbFunction where
  | rgblight_step
  | rgblight_toggle
  | rgblight_step_reverse
  deriving DecidableEq, Repr

/-- The table `const rgb_f rgb_functions[TOUCH_SEGMENTS] = { rgblight_step,
rgblight_toggle, rgblight_step_reverse }`: an array of `TOUCH_SEGMENTS` entries,
an entry without an initializer being a null pointer (`none`). -/
def rgb_functions (cfg : Config) : List (Option RgbFunction) :=
  (List.range cfg.TOUCH_SEGMENTS).map fun i =>
    [RgbFunction.rgblight_step, RgbFunction.rgblight_toggle,
      RgbFunction.rgblight_step_reverse][i]?

/-- The array access `rgb_functions[section]` of the keymap's
`touch_encoder_tapped_user`; `none` is an access out of bounds. -/
def rgb_functions_lookup (cfg : Config) (section_ : Nat) : Option (Option RgbFunction) :=
  (rgb_functions cfg)[section_]?

/-! ## Test configurations and states -/

/-- A configuration with small constants: poll every tick, tap term 10,
three zones, dead zone 2, four position ticks per encoder step. -/
def cfg_small : Config :=
  { TOUCH_UPDATE_INTERVAL := 1, TOUCH_TERM := 10, TOUCH_SEGMENTS := 3,
    TOUCH_DEADZONE := 2, ENCODER_RESOLUTION := 4 }

/-- The globals after a successful `touch_encoder_init` at program start. -/
def state_ready : State := { State.init with touch_initialized := true }

/-- A configuration with a wide dead zone: poll every tick, tap term 10, three
zones, dead zone 50, four position ticks per encoder step. -/
def cfg_wide : Config :=
  { TOUCH_UPDATE_INTERVAL := 1, TOUCH_TERM := 10, TOUCH_SEGMENTS := 3,
    TOUCH_DEADZONE := 50, ENCODER_RESOLUTION := 4 }

/-- As `cfg_small`, with one position tick per encoder step. -/
def cfg_fine : Config := { cfg_small with ENCODER_RESOLUTION := 1 }

/-- A touch in progress whose gesture timer (deadline tick 0) has expired, with
the given processed and raw slider positions. -/
def state_touching (processed3 raw3 : Nat) : State :=
  { state_ready with touch_raw := ⟨2, 0, 0, raw3⟩, touch_processed := ⟨2, 0, 0, processed3⟩ }

/-- The `touch_encoder_update_user` calls among the events, in order. -/
def rotations (ev : List Event) : List Event := ev.filter Event.isRotate

/-- Successive polls of a touch whose reads succeed with the slider-active bit
set and whose raw position moves by one unit each, upward (`up = true`, staying
at most 255) or downward, starting next to `prev`. -/
def unit_steps (up : Bool) : Nat → List Poll → Bool
  | _, [] => true
  | prev, p :: ps =>
    match p.rd with
    | none => false
    | some r =>
      decide (r.b0 &&& SLIDER_BIT ≠ 0) &&
        (if up then decide (r.b3 = prev + 1 ∧ r.b3 ≤ 255) else decide (r.b3 + 1 = prev)) &&
        unit_steps up r.b3 ps

/-- The gesture timer of `s` has expired at the tick of every poll of the list:
the touch-start grace window is over. -/
def grace_over (s : State) (polls : List Poll) : Bool :=
  polls.all fun p => timer_expired (timer_read p.now) s.touch_timer

/-- Nine polls of a touch, the raw position going up from 101 to 109 one unit at
a time. -/
def polls_up : List Poll :=
  [⟨20, some ⟨2, 0, 0, 101⟩⟩, ⟨21, some ⟨2, 0, 0, 102⟩⟩, ⟨22, some ⟨2, 0, 0, 103⟩⟩,
   ⟨23, some ⟨2, 0, 0, 104⟩⟩, ⟨24, some ⟨2, 0, 0, 105⟩⟩, ⟨25, some ⟨2, 0, 0, 106⟩⟩,
   ⟨26, some ⟨2, 0, 0, 107⟩⟩, ⟨27, some ⟨2, 0, 0, 108⟩⟩, ⟨28, some ⟨2, 0, 0, 109⟩⟩]

/-- A call of one of the two entry points that are guarded by `touch_initialized`. -/
inductive Call where
  | update (now : Nat) (rd : Option Regs)
  | calibrate (ok : Bool)
  deriving DecidableEq, Repr

/-- Perform one call. -/
def Call.perform (cfg : Config) : Call → State → State × List Event
  | .update now rd, s => touch_encoder_update cfg now rd s
  | .calibrate ok, s => touch_encoder_calibrate ok s

/-- Perform a sequence of calls, collecting the events. -/
def run_calls (cfg : Config) : State → List Call → State × List Event
  | s, [] => (s, [])
  | s, c :: cs =>
    let a := c.perform cfg s
    let b := run_calls cfg a.1 cs
    (b.1, a.2 ++ b.2)

/-- The bus transactions among the events, in order. -/
def bus_transactions (ev : List Event) : List Event := ev.filter Event.isBus

/-- Every successful read of the sequence delivers four bytes. -/
def reads_wf (polls : List Poll) : Bool :=
  polls.all fun q =>
    match q.rd with
    | some r => decide r.WF
    | none => true

/-- A configuration with the default `TOUCH_UPDATE_INTERVAL` of 33 ticks. -/
def cfg_interval_33 : Config :=
  { TOUCH_TERM := 350, TOUCH_SEGMENTS := 3, TOUCH_DEADZONE := 50, ENCODER_RESOLUTION := 4 }

/-- An initialized driver whose poll deadline is tick 65500, shortly before the
16-bit tick counter wraps. -/
def state_late : State := { state_ready with touch_update_timer := 65500 }

/-- Eight polls of a touch at ticks 1 to 8, the raw position going up from 101 to
108 one unit at a time. -/
def polls_early : List Poll :=
  [⟨1, some ⟨2, 0, 0, 101⟩⟩, ⟨2, some ⟨2, 0, 0, 102⟩⟩, ⟨3, some ⟨2, 0, 0, 103⟩⟩,
   ⟨4, some ⟨2, 0, 0, 104⟩⟩, ⟨5, some ⟨2, 0, 0, 105⟩⟩, ⟨6, some ⟨2, 0, 0, 106⟩⟩,
   ⟨7, some ⟨2, 0, 0, 107⟩⟩, ⟨8, some ⟨2, 0, 0, 108⟩⟩]

/-- Polls of a touch that rests on position `p0`: every read that succeeds shows
the slider-active bit set and the position `p0`. -/
def stationary (p0 : Nat) (polls : List Poll) : Bool :=
  polls.all fun q =>
    match q.rd with
    | none => true
    | some r => decide (r.b0 &&& SLIDER_BIT ≠ 0 ∧ r.b3 = p0)

/-- The driver in the middle of a touch resting on `p0` with gesture deadline `T`. -/
def Resting (p0 T : Nat) (s : State) : Prop :=
  s.touch_raw.b0 = s.touch_processed.b0 ∧ s.touch_processed.b0 &&& SLIDER_BIT ≠ 0 ∧
    s.touch_raw.b3 = p0 ∧ s.touch_processed.b3 = p0 ∧ s.touch_timer = T

/-- A write of the calibration command `0x01` to `QT_CALIBRATE`. -/
def Event.isCalibrate : Event → Bool
  | .i2c_writeReg reg data _ => reg == QT_CALIBRATE && data == 0x01
  | _ => false

/-- The number of calibration commands among the events. -/
def calibrate_writes (ev : List Event) : Nat := ev.countP Event.isCalibrate

/-- The raw-position callback. -/
def Event.isRawNotify : Event → Bool
  | .touch_encoder_update_user_raw _ => true
  | _ => false

/-- The callbacks of the position path among the events, in order:
`touch_encoder_update_user_raw` and `touch_encoder_update_user`. -/
def position_callbacks (ev : List Event) : List Event :=
  ev.filter fun e => e.isRawNotify || e.isRotate

/-- The number of `touch_encoder_update_user_raw` calls among the events. -/
def raw_calls (ev : List Event) : Nat := ev.countP Event.isRawNotify

/-- The globals of an executed poll when it reaches the second `if` of
`touch_encoder_update`, after the read, the key copy and the status block. -/
def entry_state (cfg : Config) (now : Nat) (rd : Option Regs) (s : State) : State :=
  (status_change cfg now (poll_read cfg now rd s).1).1

/-- The test of the second `if` of `touch_encoder_update`: the position path is
entered. -/
def position_path_entered (s : State) : Bool :=
  decide (s.touch_raw.b0 &&& SLIDER_BIT ≠ 0 ∧ s.touch_processed.b3 ≠ s.touch_raw.b3)

/-- The early return of `touch_encoder_update_position`: the gesture timer has
not expired and the `uint8_t` difference is within `TOUCH_DEADZONE`. -/
def dead_zone_holds (cfg : Config) (now : Nat) (s : State) : Bool :=
  !timer_expired (timer_read now) s.touch_timer &&
    decide ((((s.touch_raw.b3 : Int) - (s.touch_processed.b3 : Int)) % 256) ≤
      (cfg.TOUCH_DEADZONE : Int))

/-- A trace with a long hold: rising edge polled at tick 0 on position 100, a
resting poll at tick 20000, falling edge polled at tick 40000. -/
def polls_long_hold : List Poll :=
  [⟨0, some ⟨2, 0, 0, 100⟩⟩, ⟨20000, some ⟨2, 0, 0, 100⟩⟩, ⟨40000, some ⟨0, 0, 0, 100⟩⟩]

/-- Every successful read of the polls shows the slider-active bit set: the
polls lie between the rising and the falling edge of one touch. -/
def touching (polls : List Poll) : Bool :=
  polls.all fun q =>
    match q.rd with
    | none => true
    | some r => decide (r.b0 &&& SLIDER_BIT ≠ 0)

/-- Every poll is made at a tick between `t0` and `t1`. -/
def ticks_within (t0 t1 : Nat) (polls : List Poll) : Bool :=
  polls.all fun q => decide (t0 ≤ q.now ∧ q.now ≤ t1)

/-- The poll `q` made in state `s` accepts a movement during the grace window:
it is executed, enters the position path with the gesture timer not expired, and
the dead-zone return is not taken, so that it runs `touch_timer = timer_read()`. -/
def accepts_in_grace (cfg : Config) (q : Poll) (s : State) : Bool :=
  poll_due cfg q.now s && position_path_entered (entry_state cfg q.now q.rd s) &&
    !timer_expired (timer_read q.now) (entry_state cfg q.now q.rd s).touch_timer &&
    !dead_zone_holds cfg q.now (entry_state cfg q.now q.rd s)

/-- Some poll of the list, run from state `s`, accepts a movement during the
grace window. -/
def accepted_in_grace (cfg : Config) : State → List Poll → Bool
  | _, [] => false
  | s, q :: qs =>
    accepts_in_grace cfg q s || accepted_in_grace cfg (touch_encoder_update cfg q.now q.rd s).1 qs

/-- The slider-active bit is set in the raw and in the processed status byte. -/
def Touched (s : State) : Prop :=
  s.touch_raw.b0 = s.touch_processed.b0 ∧ s.touch_processed.b0 &&& SLIDER_BIT ≠ 0

/-- The gesture timer holds a tick between `t0` and `t1`. -/
def Lapsed (t0 t1 : Nat) (s : State) : Prop :=
  ∃ c, t0 ≤ c ∧ c ≤ t1 ∧ s.touch_timer = c % 65536

/-- A touch with a rotation: rising edge at tick 0 on position 100, the finger
at 120 from tick 20 on (after the grace window), release at tick 40. -/
def polls_rotate_release : List Poll :=
  [⟨20, some ⟨2, 0, 0, 120⟩⟩, ⟨30, some ⟨2, 0, 0, 120⟩⟩]

/-- The gesture timer has expired when the last poll of the list is made: the
touch-start grace window is over by then. -/
def grace_over_at_last (cfg : Config) : State → List Poll → Bool
  | _, [] => true
  | s, [q] => timer_expired (timer_read q.now) s.touch_timer
  | s, q :: q2 :: qs =>
    grace_over_at_last cfg (touch_encoder_update cfg q.now q.rd s).1 (q2 :: qs)

/-- A configuration with one position tick per encoder step and a dead zone of
200: poll every tick, tap term 300, three zones. -/
def cfg_fine_wide : Config :=
  { TOUCH_UPDATE_INTERVAL := 1, TOUCH_TERM := 300, TOUCH_SEGMENTS := 3,
    TOUCH_DEADZONE := 200, ENCODER_RESOLUTION := 1 }

/-- Polls at ticks `k + 1, ..., k + n` of a touch whose raw position goes up one
unit per poll from `k + 1` to `k + n`. -/
def polls_climb : Nat → Nat → List Poll
  | _, 0 => []
  | k, n + 1 => ⟨k + 1, some ⟨2, 0, 0, k + 1⟩⟩ :: polls_climb (k + 1) n

/-- A touch rising at tick 0 on position 0 is followed by 200 unit steps upward
polled at ticks 1 to 200 and a last one, to position 201, polled at tick 400. -/
def polls_201 : List Poll := polls_climb 0 200 ++ [⟨400, some ⟨2, 0, 0, 201⟩⟩]

/-- Twelve unit steps upward from position 100, polled at ticks 1 to 12. -/
def polls_twelve : List Poll :=
  [⟨1, some ⟨2, 0, 0, 101⟩⟩, ⟨2, some ⟨2, 0, 0, 102⟩⟩, ⟨3, some ⟨2, 0, 0, 103⟩⟩,
   ⟨4, some ⟨2, 0, 0, 104⟩⟩, ⟨5, some ⟨2, 0, 0, 105⟩⟩, ⟨6, some ⟨2, 0, 0, 106⟩⟩,
   ⟨7, some ⟨2, 0, 0, 107⟩⟩, ⟨8, some ⟨2, 0, 0, 108⟩⟩, ⟨9, some ⟨2, 0, 0, 109⟩⟩,
   ⟨10, some ⟨2, 0, 0, 110⟩⟩, ⟨11, some ⟨2, 0, 0, 111⟩⟩, ⟨12, some ⟨2, 0, 0, 112⟩⟩]

/-! # Theorems -/

/-! ## Bit tests and event counting -/

theorem and_slider_cases (a : Nat) : a &&& SLIDER_BIT = 0 ∨ a &&& SLIDER_BIT = 2 := by
  have h := Nat.and_two_pow a 1
  simp only [SLIDER_BIT]
  cases hb : a.testBit 1 <;> simp [hb] at h <;> omega

theorem xor_and_slider (a b : Nat) :
    ((a ^^^ b) &&& SLIDER_BIT ≠ 0) ↔ (a &&& SLIDER_BIT ≠ b &&& SLIDER_BIT) := by
  rw [Nat.and_xor_distrib_right, Ne, Nat.xor_eq_zero]

theorem tap_calls_append (a b : List Event) :
    tap_calls (a ++ b) = tap_calls a + tap_calls b := by
  simp [tap_calls]

theorem callbacks_append (a b : List Event) :
    callbacks (a ++ b) = callbacks a ++ callbacks b := by
  simp [callbacks]

theorem callbacks_status_diagnostics (d st : Nat) : callbacks (status_diagnostics d st) = [] := by
  unfold status_diagnostics callbacks
  split <;> split <;> simp [Event.isCallback]

theorem tap_calls_status_diagnostics (d st : Nat) : tap_calls (status_diagnostics d st) = 0 := by
  unfold status_diagnostics tap_calls
  split <;> split <;> simp [Event.isTap]

theorem tap_calls_position (cfg : Config) (now : Nat) (s : State) :
    tap_calls (touch_encoder_update_position cfg now s).2 = 0 := by
  unfold touch_encoder_update_position tap_calls
  simp only
  split
  · rfl
  · split
    · rfl
    · simp [List.countP_cons, List.countP_replicate, Event.isTap]

theorem tap_calls_position_change (cfg : Config) (now : Nat) (s : State) :
    tap_calls (position_change cfg now s).2 = 0 := by
  unfold position_change
  split
  · exact tap_calls_position cfg now s
  · rfl

theorem tap_calls_status_change (cfg : Config) (now : Nat) (s : State) :
    tap_calls (status_change cfg now s).2 =
      if s.touch_processed.b0 &&& SLIDER_BIT ≠ 0 ∧ s.touch_raw.b0 &&& SLIDER_BIT = 0 ∧
          timer_expired (timer_read now) s.touch_timer = false then 1 else 0 := by
  have hx := xor_and_slider s.touch_raw.b0 s.touch_processed.b0
  have hr := and_slider_cases s.touch_raw.b0
  have hp := and_slider_cases s.touch_processed.b0
  unfold status_change touch_encoder_update_tapped
  by_cases hne : s.touch_raw.b0 = s.touch_processed.b0
  · rw [if_neg (by simpa using hne), if_neg]
    · rfl
    · rw [hne]; tauto
  · rw [if_pos hne]
    simp only
    by_cases hd : (s.touch_raw.b0 ^^^ s.touch_processed.b0) &&& SLIDER_BIT ≠ 0
    · rw [if_pos hd]
      have hd2 := hx.mp hd
      by_cases hr0 : s.touch_raw.b0 &&& SLIDER_BIT = 0
      · rw [if_neg (by simpa using hr0)]
        have hp2 : s.touch_processed.b0 &&& SLIDER_BIT ≠ 0 := by omega
        cases he : timer_expired (timer_read now) s.touch_timer
        · simp only [Bool.false_eq_true, ↓reduceIte, tap_calls_append, tap_calls_status_diagnostics]
          simp [hr0, hp2, tap_calls, Event.isTap]
        · simp only [↓reduceIte, tap_calls_append, tap_calls_status_diagnostics]
          simp [tap_calls]
      · rw [if_pos hr0, if_neg (by tauto)]
        simp only [tap_calls_append, tap_calls_status_diagnostics]
        simp [tap_calls]
    · rw [if_neg hd, if_neg]
      · simp [tap_calls_status_diagnostics]
      · intro h
        apply hd
        rw [hx]
        omega

/-! ## Frame lemmas: what each block leaves unchanged -/

theorem poll_read_state (cfg : Config) (now : Nat) (rd : Option Regs) (s : State) :
    (poll_read cfg now rd s).1.touch_processed.b0 = s.touch_processed.b0 ∧
      (poll_read cfg now rd s).1.touch_raw = raw_seen rd s ∧
      (poll_read cfg now rd s).1.touch_timer = s.touch_timer ∧
      (poll_read cfg now rd s).1.touch_processed.b1 = (raw_seen rd s).b1 ∧
      (poll_read cfg now rd s).1.touch_processed.b2 = (raw_seen rd s).b2 ∧
      (poll_read cfg now rd s).1.touch_processed.b3 = s.touch_processed.b3 ∧
      (poll_read cfg now rd s).1.touch_initialized = s.touch_initialized ∧
      (poll_read cfg now rd s).1.touch_update_timer =
        (if cfg.TOUCH_UPDATE_INTERVAL > 0 then
          (timer_read now + cfg.TOUCH_UPDATE_INTERVAL) % 65536 else s.touch_update_timer) := by
  unfold poll_read raw_seen read_register
  split <;> simp

theorem tap_calls_poll_read (cfg : Config) (now : Nat) (rd : Option Regs) (s : State) :
    tap_calls (poll_read cfg now rd s).2 = 0 := by
  cases rd <;> simp [poll_read, read_register, i2c_readReg, tap_calls, Event.isTap]

theorem update_tapped_frame (cfg : Config) (now : Nat) (s : State) :
    (touch_encoder_update_tapped cfg now s).1.touch_raw = s.touch_raw ∧
      (touch_encoder_update_tapped cfg now s).1.touch_processed = s.touch_processed ∧
      (touch_encoder_update_tapped cfg now s).1.touch_initialized = s.touch_initialized ∧
      (touch_encoder_update_tapped cfg now s).1.touch_update_timer = s.touch_update_timer := by
  unfold touch_encoder_update_tapped
  split
  · simp
  · split <;> simp

theorem update_position_frame (cfg : Config) (now : Nat) (s : State) :
    (touch_encoder_update_position cfg now s).1.touch_raw = s.touch_raw ∧
      (touch_encoder_update_position cfg now s).1.touch_processed.b0 = s.touch_processed.b0 ∧
      (touch_encoder_update_position cfg now s).1.touch_processed.b1 = s.touch_processed.b1 ∧
      (touch_encoder_update_position cfg now s).1.touch_processed.b2 = s.touch_processed.b2 ∧
      (touch_encoder_update_position cfg now s).1.touch_initialized = s.touch_initialized ∧
      (touch_encoder_update_position cfg now s).1.touch_update_timer = s.touch_update_timer := by
  unfold touch_encoder_update_position
  simp only
  split
  · simp
  · split
    · split <;> simp
    · split <;> simp

theorem position_change_frame (cfg : Config) (now : Nat) (s : State) :
    (position_change cfg now s).1.touch_raw = s.touch_raw ∧
      (position_change cfg now s).1.touch_processed.b0 = s.touch_processed.b0 ∧
      (position_change cfg now s).1.touch_processed.b1 = s.touch_processed.b1 ∧
      (position_change cfg now s).1.touch_processed.b2 = s.touch_processed.b2 ∧
      (position_change cfg now s).1.touch_initialized = s.touch_initialized ∧
      (position_change cfg now s).1.touch_update_timer = s.touch_update_timer := by
  unfold position_change
  split
  · exact update_position_frame cfg now s
  · simp

theorem status_change_frame (cfg : Config) (now : Nat) (s : State) :
    (status_change cfg now s).1.touch_raw = s.touch_raw ∧
      (status_change cfg now s).1.touch_processed.b0 = s.touch_raw.b0 ∧
      (status_change cfg now s).1.touch_processed.b1 = s.touch_processed.b1 ∧
      (status_change cfg now s).1.touch_processed.b2 = s.touch_processed.b2 ∧
      (status_change cfg now s).1.touch_initialized = s.touch_initialized ∧
      (status_change cfg now s).1.touch_update_timer = s.touch_update_timer := by
  unfold status_change
  split
  · simp only
    split
    · obtain ⟨h1, h2, h3, h4⟩ := update_tapped_frame cfg now
        { s with touch_processed :=
            { b0 := s.touch_raw.b0, b1 := s.touch_processed.b1, b2 := s.touch_processed.b2,
              b3 := s.touch_raw.b3 } }
      simp [h1, h2, h3, h4]
    · simp
  · next h =>
    simp only [ne_eq, Decidable.not_not] at h
    simp [h]

/-- What an executed poll leaves in the globals, apart from the position byte
and the gesture timer: the raw snapshot is the one just read (the old one after
a failed read), the processed status and key bytes agree with it, and the poll
timer is rescheduled. -/
theorem poll_body_frame (cfg : Config) (now : Nat) (rd : Option Regs) (s : State) :
    (poll_body cfg now rd s).1.touch_raw = raw_seen rd s ∧
      (poll_body cfg now rd s).1.touch_processed.b0 = (raw_seen rd s).b0 ∧
      (poll_body cfg now rd s).1.touch_processed.b1 = (raw_seen rd s).b1 ∧
      (poll_body cfg now rd s).1.touch_processed.b2 = (raw_seen rd s).b2 ∧
      (poll_body cfg now rd s).1.touch_initialized = s.touch_initialized ∧
      (poll_body cfg now rd s).1.touch_update_timer =
        (if cfg.TOUCH_UPDATE_INTERVAL > 0 then
          (timer_read now + cfg.TOUCH_UPDATE_INTERVAL) % 65536 else s.touch_update_timer) := by
  unfold poll_body
  simp only
  obtain ⟨r1, r2, r3, r4, r5, r6, r7, r8⟩ := poll_read_state cfg now rd s
  obtain ⟨a1, a2, a3, a4, a5, a6⟩ := status_change_frame cfg now (poll_read cfg now rd s).1
  obtain ⟨b1, b2, b3, b4, b5, b6⟩ :=
    position_change_frame cfg now (status_change cfg now (poll_read cfg now rd s).1).1
  rw [b1, b2, b3, b4, b5, b6, a1, a2, a3, a4, a5, a6, r2, r4, r5, r7, r8]
  simp

theorem callbacks_poll_read (cfg : Config) (now : Nat) (rd : Option Regs) (s : State) :
    callbacks (poll_read cfg now rd s).2 = [] := by
  cases rd <;> simp [poll_read, read_register, i2c_readReg, callbacks, Event.isCallback]

/-- An executed poll that sees the slider-active bit rise: the position is taken
over, the gesture timer is armed, no callback is made. -/
theorem rising_edge_poll (cfg : Config) (now : Nat) (rd : Option Regs) (s : State)
    (hdue : poll_due cfg now s = true)
    (hclear : s.touch_processed.b0 &&& SLIDER_BIT = 0)
    (hset : (raw_seen rd s).b0 &&& SLIDER_BIT ≠ 0) :
    (touch_encoder_update cfg now rd s).1.touch_timer =
        (timer_read now + cfg.TOUCH_TERM) % 65536 ∧
      (touch_encoder_update cfg now rd s).1.touch_processed.b3 = (raw_seen rd s).b3 ∧
      callbacks (touch_encoder_update cfg now rd s).2 = [] := by
  unfold touch_encoder_update
  rw [if_pos hdue]
  unfold poll_body
  simp only
  obtain ⟨r1, r2, -, -, -, -, -, -⟩ := poll_read_state cfg now rd s
  have hcb := callbacks_poll_read cfg now rd s
  generalize (poll_read cfg now rd s).2 = ea at hcb
  generalize (poll_read cfg now rd s).1 = a at r1 r2
  generalize raw_seen rd s = raw at r2 hset
  have hne : a.touch_raw.b0 ≠ a.touch_processed.b0 := by
    rw [r1, r2]
    intro h
    rw [h] at hset
    exact hset hclear
  have hd : (a.touch_raw.b0 ^^^ a.touch_processed.b0) &&& SLIDER_BIT ≠ 0 := by
    rw [xor_and_slider, r1, r2, hclear]
    exact hset
  have hsc : status_change cfg now a =
      ({ a with
          touch_processed := { a.touch_processed with b0 := raw.b0, b3 := raw.b3 },
          touch_timer := (timer_read now + cfg.TOUCH_TERM) % 65536 },
        status_diagnostics (a.touch_raw.b0 ^^^ a.touch_processed.b0) a.touch_raw.b0) := by
    unfold status_change
    rw [if_pos hne]
    simp only
    rw [if_pos hd]
    unfold touch_encoder_update_tapped
    simp only [r2]
    rw [if_pos hset]
    simp
  rw [hsc]
  simp only
  have hpc : ∀ (b : State), b.touch_processed.b3 = b.touch_raw.b3 →
      position_change cfg now b = (b, []) := by
    intro b hb
    unfold position_change
    rw [if_neg]
    rintro ⟨-, h⟩
    exact h hb
  rw [hpc _ (by simp [r2])]
  simp only [callbacks_append, hcb, callbacks_status_diagnostics, List.append_nil]
  trivial

/-- The driver after a `touch_encoder_init` at program start whose writes all
succeed. -/
theorem state_ready_reachable :
    (touch_encoder_init (fun _ => true) State.init).1 = state_ready := by
  decide

theorem run_append (cfg : Config) (s : State) (a b : List Poll) :
    run cfg s (a ++ b) =
      ((run cfg (run cfg s a).1 b).1, (run cfg s a).2 ++ (run cfg (run cfg s a).1 b).2) := by
  induction a generalizing s with
  | nil => simp [run]
  | cons p ps ih => simp [run, ih, List.append_assoc]

/-! ## C1: tap callback timing -/

/-- The two traces named by claim C1: activate at tick 0 with `TOUCH_TERM = 10`;
a release polled at tick 5 gives one tap callback, a release polled at tick 15
gives none. -/
theorem tap_traces_term_10 :
    tap_calls (run cfg_small state_ready
      [⟨0, some ⟨2, 0, 0, 100⟩⟩, ⟨5, some ⟨0, 0, 0, 100⟩⟩]).2 = 1 ∧
    tap_calls (run cfg_small state_ready
      [⟨0, some ⟨2, 0, 0, 100⟩⟩, ⟨15, some ⟨0, 0, 0, 100⟩⟩]).2 = 0 := by
  decide

/-- The number of tap callbacks of one `touch_encoder_update` call. -/
theorem tap_calls_update (cfg : Config) (now : Nat) (rd : Option Regs) (s : State) :
    tap_calls (touch_encoder_update cfg now rd s).2 =
      if poll_due cfg now s = true ∧ s.touch_processed.b0 &&& SLIDER_BIT ≠ 0 ∧
          (raw_seen rd s).b0 &&& SLIDER_BIT = 0 ∧
          timer_expired (timer_read now) s.touch_timer = false then 1 else 0 := by
  unfold touch_encoder_update
  cases hdue : poll_due cfg now s
  · simp [tap_calls]
  · simp only [↓reduceIte, true_and]
    unfold poll_body
    simp only [tap_calls_append, tap_calls_position_change, tap_calls_status_change,
      tap_calls_poll_read]
    obtain ⟨h1, h2, h3, -⟩ := poll_read_state cfg now rd s
    rw [h1, h2, h3]
    simp

/-! ### A touch that rests on its position -/

/-- The status block when the slider-active bit did not change: only the status
byte is copied, and no callback is made. -/
theorem status_change_slider_kept (cfg : Config) (now : Nat) (s : State)
    (h : s.touch_raw.b0 &&& SLIDER_BIT = s.touch_processed.b0 &&& SLIDER_BIT) :
    (status_change cfg now s).1 =
        { s with touch_processed := { s.touch_processed with b0 := s.touch_raw.b0 } } ∧
      callbacks (status_change cfg now s).2 = [] := by
  have hx := xor_and_slider s.touch_raw.b0 s.touch_processed.b0
  unfold status_change
  split
  · simp only
    rw [if_neg (by rw [hx]; simpa using h)]
    exact ⟨rfl, callbacks_status_diagnostics _ _⟩
  · next hne =>
    simp only [ne_eq, Decidable.not_not] at hne
    refine ⟨?_, rfl⟩
    rw [hne]

theorem position_change_idle (cfg : Config) (now : Nat) (s : State)
    (h : s.touch_raw.b0 &&& SLIDER_BIT = 0 ∨ s.touch_processed.b3 = s.touch_raw.b3) :
    position_change cfg now s = (s, []) := by
  unfold position_change
  rw [if_neg]
  rintro ⟨ha, hb⟩
  rcases h with h | h
  · exact ha h
  · exact hb h

theorem resting_poll (cfg : Config) (p0 T : Nat) (q : Poll) (s : State)
    (hs : Resting p0 T s) (hq : stationary p0 [q] = true) :
    Resting p0 T (touch_encoder_update cfg q.now q.rd s).1 ∧
      callbacks (touch_encoder_update cfg q.now q.rd s).2 = [] := by
  obtain ⟨i1, i2, i3, i4, i5⟩ := hs
  unfold touch_encoder_update
  split
  · unfold poll_body
    simp only
    obtain ⟨r1, r2, r3, -, -, r6, -, -⟩ := poll_read_state cfg q.now q.rd s
    have hcb := callbacks_poll_read cfg q.now q.rd s
    generalize (poll_read cfg q.now q.rd s).2 = ea at hcb
    generalize (poll_read cfg q.now q.rd s).1 = a at r1 r2 r3 r6
    have hraw : (raw_seen q.rd s).b0 &&& SLIDER_BIT ≠ 0 ∧ (raw_seen q.rd s).b3 = p0 := by
      obtain ⟨now, rd⟩ := q
      cases rd with
      | none => exact ⟨by show s.touch_raw.b0 &&& SLIDER_BIT ≠ 0; rw [i1]; exact i2, i3⟩
      | some r => simpa [stationary] using hq
    generalize raw_seen q.rd s = raw at r2 hraw
    have hkeep : a.touch_raw.b0 &&& SLIDER_BIT = a.touch_processed.b0 &&& SLIDER_BIT := by
      rw [r1, r2]
      rcases and_slider_cases raw.b0 with h | h
      · exact absurd h hraw.1
      · rcases and_slider_cases s.touch_processed.b0 with h2 | h2
        · exact absurd h2 i2
        · rw [h, h2]
    obtain ⟨hst, hsc⟩ := status_change_slider_kept cfg q.now a hkeep
    rw [hst]
    generalize (status_change cfg q.now a).2 = eb at hsc
    rw [position_change_idle cfg q.now _ (Or.inr (by simp [r2, r6, i4, hraw.2]))]
    refine ⟨⟨by simp, by simpa [r2] using hraw.1, by simpa [r2] using hraw.2,
      by simpa [r6] using i4, by simpa [r3] using i5⟩, ?_⟩
    simp only [callbacks_append, hcb, hsc, List.append_nil]
  · exact ⟨⟨i1, i2, i3, i4, i5⟩, rfl⟩

theorem resting_run (cfg : Config) (p0 T : Nat) (polls : List Poll) :
    ∀ s, Resting p0 T s → stationary p0 polls = true →
      Resting p0 T (run cfg s polls).1 ∧ callbacks (run cfg s polls).2 = [] := by
  induction polls with
  | nil => intro s hs _; exact ⟨hs, rfl⟩
  | cons q qs ih =>
    intro s hs hq
    simp only [stationary, List.all_cons, Bool.and_eq_true] at hq
    obtain ⟨h1, h2⟩ := resting_poll cfg p0 T q s hs (by simpa [stationary] using hq.1)
    obtain ⟨h3, h4⟩ := ih _ h1 (by simpa [stationary] using hq.2)
    simp only [run, callbacks_append, h2, h4, List.append_nil]
    exact ⟨h3, trivial⟩

/-- After an executed poll that sees the slider-active bit rise, the driver rests
on the position read, with the deadline armed. -/
theorem resting_after_rise (cfg : Config) (t0 : Nat) (r0 : Regs) (s : State)
    (hdue : poll_due cfg t0 s = true)
    (hclear : s.touch_processed.b0 &&& SLIDER_BIT = 0) (hset : r0.b0 &&& SLIDER_BIT ≠ 0) :
    Resting r0.b3 ((timer_read t0 + cfg.TOUCH_TERM) % 65536)
      (touch_encoder_update cfg t0 (some r0) s).1 := by
  obtain ⟨e1, e2, -⟩ := rising_edge_poll cfg t0 (some r0) s hdue hclear hset
  have hu : touch_encoder_update cfg t0 (some r0) s = poll_body cfg t0 (some r0) s := by
    unfold touch_encoder_update
    rw [if_pos hdue]
  obtain ⟨f1, f2, -⟩ := poll_body_frame cfg t0 (some r0) s
  rw [← hu] at f1 f2
  have hraw : raw_seen (some r0) s = r0 := rfl
  rw [hraw] at f1 f2 e2
  exact ⟨by rw [f1, f2], by rw [f2]; exact hset, by rw [f1], e2, e1⟩

/-- A touch without position change: rising edge polled at tick `t0`, then polls
that rest on the same position, then the falling edge polled at tick `t1`.  The
release is a tap exactly when `t1` has not reached the deadline armed at the
rising edge. -/
theorem resting_touch_tap (cfg : Config) (t0 t1 : Nat) (r0 r1 : Regs) (mids : List Poll)
    (s : State)
    (hdue0 : poll_due cfg t0 s = true)
    (hclear : s.touch_processed.b0 &&& SLIDER_BIT = 0) (hset : r0.b0 &&& SLIDER_BIT ≠ 0)
    (hmid : stationary r0.b3 mids = true)
    (hdue1 : poll_due cfg t1 (run cfg s (Poll.mk t0 (some r0) :: mids)).1 = true)
    (hfall : r1.b0 &&& SLIDER_BIT = 0) :
    tap_calls (touch_encoder_update cfg t1 (some r1)
        (run cfg s (Poll.mk t0 (some r0) :: mids)).1).2 =
      if timer_expired (timer_read t1) ((timer_read t0 + cfg.TOUCH_TERM) % 65536) then 0 else 1 := by
  have h0 := resting_after_rise cfg t0 r0 s hdue0 hclear hset
  obtain ⟨⟨-, i2, -, -, i5⟩, -⟩ := resting_run cfg _ _ mids _ h0 hmid
  rw [tap_calls_update]
  simp only [run] at hdue1 ⊢
  have hraw : ∀ x, raw_seen (some r1) x = r1 := fun _ => rfl
  simp only [hraw, i5, hdue1, hfall, true_and]
  cases he : timer_expired (timer_read t1) ((timer_read t0 + cfg.TOUCH_TERM) % 65536)
  · simp [i2]
  · simp

theorem tap_divisor_mul_gt (n : Nat) (hn : 1 ≤ n) : 255 < n * (255 / n + 1) := by
  have h1 := Nat.div_add_mod 255 n
  have h2 := Nat.mod_lt 255 (show n > 0 by omega)
  rw [Nat.mul_add, Nat.mul_one]
  omega

theorem tap_quotient_lt (n position : Nat) (hn : 1 ≤ n) (hpos : position ≤ 255) :
    position / (255 / n + 1) < n := by
  have h := tap_divisor_mul_gt n hn
  apply (Nat.div_lt_iff_lt_mul (Nat.succ_pos _)).mpr
  exact Nat.lt_of_le_of_lt hpos h

theorem tap_section_eq (cfg : Config) (position : Nat) (hpos : position ≤ 255) :
    tap_section cfg position = position / (255 / cfg.TOUCH_SEGMENTS + 1) := by
  unfold tap_section UINT8_MAX
  apply Nat.mod_eq_of_lt
  have : position / (255 / cfg.TOUCH_SEGMENTS + 1) ≤ position := Nat.div_le_self _ _
  omega

theorem rgb_functions_length (cfg : Config) : (rgb_functions cfg).length = cfg.TOUCH_SEGMENTS := by
  simp [rgb_functions]

/-- Claim C2: for every position byte `0..255` and every `TOUCH_SEGMENTS ≥ 1`
(in particular `1..255`) the section `position / (UINT8_MAX / TOUCH_SEGMENTS + 1)` that
`touch_encoder_update_tapped` passes to `touch_encoder_tapped_user` is below
`TOUCH_SEGMENTS`, and the keymap's access `rgb_functions[section]` into its array
of `TOUCH_SEGMENTS` entries is in bounds. -/
theorem tap_section_in_range (cfg : Config) (now : Nat) (s : State)
    (hpos : s.touch_processed.b3 ≤ 255) (h1 : 1 ≤ cfg.TOUCH_SEGMENTS) :
    tap_section cfg s.touch_processed.b3 =
        s.touch_processed.b3 / (UINT8_MAX / cfg.TOUCH_SEGMENTS + 1) ∧
      tap_section cfg s.touch_processed.b3 < cfg.TOUCH_SEGMENTS ∧
      (∀ index section_, Event.touch_encoder_tapped_user index section_ ∈
          (touch_encoder_update_tapped cfg now s).2 →
        section_ = tap_section cfg s.touch_processed.b3 ∧ section_ < cfg.TOUCH_SEGMENTS ∧
          rgb_functions_lookup cfg section_ ≠ none) := by
  have heq := tap_section_eq cfg _ hpos
  have hlt : tap_section cfg s.touch_processed.b3 < cfg.TOUCH_SEGMENTS := by
    rw [heq]; exact tap_quotient_lt _ _ h1 hpos
  refine ⟨heq, hlt, ?_⟩
  intro index section_ hmem
  unfold touch_encoder_update_tapped at hmem
  split at hmem
  · simp at hmem
  · split at hmem
    · simp at hmem
    · simp only [List.mem_singleton, Event.touch_encoder_tapped_user.injEq] at hmem
      obtain ⟨-, rfl⟩ := hmem
      refine ⟨rfl, hlt, ?_⟩
      unfold rgb_functions_lookup
      intro hnone
      rw [List.getElem?_eq_none_iff, rgb_functions_length] at hnone
      omega

/-- Witness of `tap_section_in_range`: three zones, processed position 255. -/
theorem tap_section_in_range_witness :
    tap_section cfg_small 255 = 255 / (UINT8_MAX / 3 + 1) ∧ tap_section cfg_small 255 < 3 ∧
      (∀ index section_, Event.touch_encoder_tapped_user index section_ ∈
          (touch_encoder_update_tapped cfg_small 5
            { state_ready with touch_processed := ⟨0, 0, 0, 255⟩, touch_timer := 10 }).2 →
        section_ = tap_section cfg_small 255 ∧ section_ < 3 ∧
          rgb_functions_lookup cfg_small section_ ≠ none) :=
  tap_section_in_range cfg_small 5
    { state_ready with touch_processed := ⟨0, 0, 0, 255⟩, touch_timer := 10 }
    (by decide) (by decide)

theorem tdiv_sub_cast (p r n : Nat) :
    Int.tdiv ((p : Int) - (r : Int)) (n : Int) =
      if r ≤ p then (((p - r) / n : Nat) : Int) else -(((r - p) / n : Nat) : Int) := by
  split
  · next h =>
    rw [← Int.ofNat_sub h]
    exact (Int.ofNat_tdiv _ _).symm
  · next h =>
    have h2 : (p : Int) - (r : Int) = -(((r - p : Nat)) : Int) := by omega
    rw [h2, Int.neg_tdiv]
    congr 1

theorem toInt8_of_fits (x : Int) (h1 : -128 ≤ x) (h2 : x ≤ 127) : toInt8 x = x := by
  unfold toInt8
  omega

theorem position_u_delta_of_fits (x : Int) (h1 : -128 ≤ x) (h2 : x ≤ 127) :
    position_u_delta x = x.natAbs := by
  unfold position_u_delta
  split <;> omega

/-- The quotient of two position bytes by the resolution fits `int8_t` when the
resolution is at least 2, or the difference itself fits. -/
theorem quotient_fits (p r n : Nat) (hp : p ≤ 255) (hr : r ≤ 255)
    (hfit : 2 ≤ n ∨ (-128 ≤ (p : Int) - (r : Int) ∧ (p : Int) - (r : Int) ≤ 127)) :
    -128 ≤ Int.tdiv ((p : Int) - (r : Int)) (n : Int) ∧
      Int.tdiv ((p : Int) - (r : Int)) (n : Int) ≤ 127 := by
  rw [tdiv_sub_cast]
  rcases hfit with h2 | ⟨hlo, hhi⟩
  · have hA : (p - r) / n ≤ (p - r) / 2 := Nat.div_le_div_left h2 (by omega)
    have hB : (r - p) / n ≤ (r - p) / 2 := Nat.div_le_div_left h2 (by omega)
    generalize (p - r) / n = a at hA ⊢
    generalize (r - p) / n = b at hB ⊢
    split <;> omega
  · have hA : (p - r) / n ≤ p - r := Nat.div_le_self _ _
    have hB : (r - p) / n ≤ r - p := Nat.div_le_self _ _
    generalize (p - r) / n = a at hA ⊢
    generalize (r - p) / n = b at hB ⊢
    split <;> omega

/-- Claim C4 as stated fails for `ENCODER_RESOLUTION = 1`: with the gesture timer
expired, processed position 200 and raw position 0, the quotient
`(200 - 0) / 1 = 200` does not fit the `int8_t delta`, and
`touch_encoder_update_user` is called 56 times, not 200 times. -/
theorem rotation_count_wraps_at_resolution_one :
    0 < cfg_fine.ENCODER_RESOLUTION ∧
    timer_expired (timer_read 100) (state_touching 200 0).touch_timer = true ∧
    (Int.tdiv ((200 : Int) - 0) (cfg_fine.ENCODER_RESOLUTION : Int)).natAbs = 200 ∧
    rotate_calls (touch_encoder_update_position cfg_fine 100 (state_touching 200 0)).2 = 56 := by
  decide

/-- The trace named by claim C4: `ENCODER_RESOLUTION = 4`, processed 100, raw 92
gives the raw-position callback and exactly two rotation callbacks with
`clockwise = false`. -/
theorem rotation_trace_100_92 :
    (touch_encoder_update_position cfg_small 100 (state_touching 100 92)).2 =
      [Event.touch_encoder_update_user_raw 0, Event.touch_encoder_update_user 0 false,
        Event.touch_encoder_update_user 0 false] := by
  decide

/-- Claim C4, amended: for every pair of position bytes `processed`, `raw` and
every `ENCODER_RESOLUTION ≥ 2` (or `ENCODER_RESOLUTION = 1` with
`-128 ≤ processed - raw ≤ 127`, so that the quotient fits the `int8_t delta`),
when `touch_encoder_update_position` runs with the gesture timer already
expired, the `touch_encoder_update_user` calls it makes are exactly
`abs((processed - raw) / ENCODER_RESOLUTION)` calls (division truncating toward
zero), every one carrying `clockwise = (raw > processed)`. -/
theorem rotation_steps (cfg : Config) (now : Nat) (s : State)
    (hp : s.touch_processed.b3 ≤ 255) (hr : s.touch_raw.b3 ≤ 255)
    (hexp : timer_expired (timer_read now) s.touch_timer = true)
    (hfit : 2 ≤ cfg.ENCODER_RESOLUTION ∨
      (cfg.ENCODER_RESOLUTION = 1 ∧
        -128 ≤ (s.touch_processed.b3 : Int) - (s.touch_raw.b3 : Int) ∧
        (s.touch_processed.b3 : Int) - (s.touch_raw.b3 : Int) ≤ 127)) :
    (touch_encoder_update_position cfg now s).2.filter Event.isRotate =
        List.replicate
          (Int.tdiv ((s.touch_processed.b3 : Int) - (s.touch_raw.b3 : Int))
            (cfg.ENCODER_RESOLUTION : Int)).natAbs
          (Event.touch_encoder_update_user 0 (decide (s.touch_raw.b3 > s.touch_processed.b3))) ∧
      rotate_calls (touch_encoder_update_position cfg now s).2 =
        (Int.tdiv ((s.touch_processed.b3 : Int) - (s.touch_raw.b3 : Int))
          (cfg.ENCODER_RESOLUTION : Int)).natAbs := by
  have key : (touch_encoder_update_position cfg now s).2.filter Event.isRotate =
      List.replicate
        (Int.tdiv ((s.touch_processed.b3 : Int) - (s.touch_raw.b3 : Int))
          (cfg.ENCODER_RESOLUTION : Int)).natAbs
        (Event.touch_encoder_update_user 0 (decide (s.touch_raw.b3 > s.touch_processed.b3))) := by
    obtain ⟨h1, h2⟩ := quotient_fits _ _ cfg.ENCODER_RESOLUTION hp hr
      (hfit.imp id fun h => h.2)
    unfold touch_encoder_update_position
    simp only [hexp, Bool.not_true, Bool.false_eq_true, false_and, ↓reduceIte]
    unfold position_delta
    rw [toInt8_of_fits _ h1 h2]
    split
    · next h0 => simp [h0]
    · next h0 =>
      rw [position_u_delta_of_fits _ h1 h2]
      simp [List.filter_cons, Event.isRotate, List.filter_replicate]
  refine ⟨key, ?_⟩
  unfold rotate_calls
  rw [List.countP_eq_length_filter, key, List.length_replicate]

/-- Witness of `rotation_steps`: resolution 4, processed 100, raw 92. -/
theorem rotation_steps_witness :
    (touch_encoder_update_position cfg_small 100 (state_touching 100 92)).2.filter Event.isRotate =
        List.replicate (Int.tdiv ((100 : Int) - 92) 4).natAbs
          (Event.touch_encoder_update_user 0 (decide (92 > 100))) ∧
      rotate_calls (touch_encoder_update_position cfg_small 100 (state_touching 100 92)).2 =
        (Int.tdiv ((100 : Int) - 92) 4).natAbs :=
  rotation_steps cfg_small 100 (state_touching 100 92) (by decide) (by decide) (by decide)
    (Or.inl (by decide))

/-! ## C5: remainder preservation -/

theorem rotations_append (a b : List Event) : rotations (a ++ b) = rotations a ++ rotations b := by
  simp [rotations]

theorem rotations_of_no_callbacks (ev : List Event) (h : callbacks ev = []) : rotations ev = [] := by
  unfold rotations
  unfold callbacks at h
  rw [List.filter_eq_nil_iff] at h ⊢
  intro e he hr
  apply h e he
  cases e <;> simp_all [Event.isRotate, Event.isCallback]

/-- The position path with the gesture timer expired. -/
theorem update_position_expired (cfg : Config) (now : Nat) (s : State)
    (hexp : timer_expired (timer_read now) s.touch_timer = true) :
    (touch_encoder_update_position cfg now s).1.touch_timer = s.touch_timer ∧
      (touch_encoder_update_position cfg now s).1.touch_processed.b3 =
        (if position_delta cfg s.touch_processed.b3 s.touch_raw.b3 = 0 then s.touch_processed.b3
         else (((s.touch_processed.b3 : Int) -
            position_delta cfg s.touch_processed.b3 s.touch_raw.b3 *
              (cfg.ENCODER_RESOLUTION : Int)) % 256).toNat) ∧
      rotations (touch_encoder_update_position cfg now s).2 =
        List.replicate
          (if position_delta cfg s.touch_processed.b3 s.touch_raw.b3 = 0 then 0
           else position_u_delta (position_delta cfg s.touch_processed.b3 s.touch_raw.b3))
          (Event.touch_encoder_update_user 0 (decide (s.touch_raw.b3 > s.touch_processed.b3))) := by
  unfold touch_encoder_update_position
  simp only [hexp, Bool.not_true, Bool.false_eq_true, false_and, ↓reduceIte]
  split
  · simp [rotations]
  · simp [rotations, List.filter_cons, Event.isRotate, List.filter_replicate]

theorem position_delta_self (cfg : Config) (p : Nat) : position_delta cfg p p = 0 := by
  unfold position_delta toInt8
  simp

/-- An executed poll during a touch (slider-active bit set before and after) with
the gesture timer expired: the timer is kept and the position is decoded. -/
theorem touching_poll_expired (cfg : Config) (now : Nat) (r : Regs) (s : State)
    (hdue : poll_due cfg now s = true)
    (hsl : s.touch_processed.b0 &&& SLIDER_BIT ≠ 0) (hrs : r.b0 &&& SLIDER_BIT ≠ 0)
    (hexp : timer_expired (timer_read now) s.touch_timer = true) :
    (touch_encoder_update cfg now (some r) s).1.touch_timer = s.touch_timer ∧
      (touch_encoder_update cfg now (some r) s).1.touch_processed.b0 = r.b0 ∧
      (touch_encoder_update cfg now (some r) s).1.touch_processed.b3 =
        (if position_delta cfg s.touch_processed.b3 r.b3 = 0 then s.touch_processed.b3
         else (((s.touch_processed.b3 : Int) -
            position_delta cfg s.touch_processed.b3 r.b3 *
              (cfg.ENCODER_RESOLUTION : Int)) % 256).toNat) ∧
      rotations (touch_encoder_update cfg now (some r) s).2 =
        List.replicate
          (if position_delta cfg s.touch_processed.b3 r.b3 = 0 then 0
           else position_u_delta (position_delta cfg s.touch_processed.b3 r.b3))
          (Event.touch_encoder_update_user 0 (decide (r.b3 > s.touch_processed.b3))) := by
  unfold touch_encoder_update
  rw [if_pos hdue]
  unfold poll_body
  simp only
  obtain ⟨r1, r2, r3, -, -, r6, -, -⟩ := poll_read_state cfg now (some r) s
  have hraw : raw_seen (some r) s = r := rfl
  rw [hraw] at r2
  generalize (poll_read cfg now (some r) s).1 = a at r1 r2 r3 r6
  have hcb := callbacks_poll_read cfg now (some r) s
  generalize (poll_read cfg now (some r) s).2 = ea at hcb
  have hkeep : a.touch_raw.b0 &&& SLIDER_BIT = a.touch_processed.b0 &&& SLIDER_BIT := by
    rw [r1, r2]
    rcases and_slider_cases r.b0 with h | h
    · exact absurd h hrs
    · rcases and_slider_cases s.touch_processed.b0 with h2 | h2
      · exact absurd h2 hsl
      · rw [h, h2]
  obtain ⟨hst, hsc⟩ := status_change_slider_kept cfg now a hkeep
  rw [hst]
  generalize (status_change cfg now a).2 = eb at hsc
  simp only [rotations_append, rotations_of_no_callbacks _ hcb, rotations_of_no_callbacks _ hsc,
    List.nil_append]
  unfold position_change
  simp only [r2, r6]
  by_cases hpq : s.touch_processed.b3 = r.b3
  · rw [if_neg (by simp [hpq])]
    simp [hpq, position_delta_self, r1, r2, r3, rotations]
  · rw [if_pos ⟨hrs, hpq⟩]
    obtain ⟨p1, p2, p3⟩ := update_position_expired cfg now
      { a with touch_processed := { a.touch_processed with b0 := r.b0 } } (by simpa [r3] using hexp)
    obtain ⟨-, q2, -⟩ := update_position_frame cfg now
      { a with touch_processed := { a.touch_processed with b0 := r.b0 } }
    simp only [r2, r3, r6] at p1 p2 p3 q2 ⊢
    exact ⟨p1, q2, p2, p3⟩

theorem position_delta_up (cfg : Config) (p q : Nat) (hpq : p < q)
    (hd : q - p ≤ cfg.ENCODER_RESOLUTION) :
    position_delta cfg p q = if q - p = cfg.ENCODER_RESOLUTION then -1 else 0 := by
  unfold position_delta
  rw [tdiv_sub_cast, if_neg (by omega)]
  split
  · next h => rw [h, Nat.div_self (by omega)]; rfl
  · next h => rw [Nat.div_eq_of_lt (by omega)]; rfl

theorem position_delta_down (cfg : Config) (p q : Nat) (hqp : q < p)
    (hd : p - q ≤ cfg.ENCODER_RESOLUTION) :
    position_delta cfg p q = if p - q = cfg.ENCODER_RESOLUTION then 1 else 0 := by
  unfold position_delta
  rw [tdiv_sub_cast, if_pos (by omega)]
  split
  · next h => rw [h, Nat.div_self (by omega)]; rfl
  · next h => rw [Nat.div_eq_of_lt (by omega)]; rfl

theorem unit_steps_up_rotations (cfg : Config) (hres : 0 < cfg.ENCODER_RESOLUTION) :
    ∀ (polls : List Poll) (s : State) (prev : Nat),
      s.touch_processed.b0 &&& SLIDER_BIT ≠ 0 →
      s.touch_processed.b3 ≤ prev → prev - s.touch_processed.b3 < cfg.ENCODER_RESOLUTION →
      unit_steps true prev polls = true → all_due cfg s polls = true →
      grace_over s polls = true →
      rotations (run cfg s polls).2 =
        List.replicate ((prev - s.touch_processed.b3 + polls.length) / cfg.ENCODER_RESOLUTION)
          (Event.touch_encoder_update_user 0 true) := by
  intro polls
  induction polls with
  | nil =>
    intro s prev _ _ hlt _ _ _
    simp [run, rotations, Nat.div_eq_of_lt hlt]
  | cons p ps ih =>
    intro s prev hsl hle hlt hsteps hdue hgrace
    obtain ⟨now, rd⟩ := p
    cases rd with
    | none => simp [unit_steps] at hsteps
    | some r =>
      simp only [unit_steps, ne_eq, ↓reduceIte, Bool.and_eq_true, decide_eq_true_eq] at hsteps
      obtain ⟨⟨hrs, hr3, hr255⟩, hrest⟩ := hsteps
      simp only [all_due, Bool.and_eq_true] at hdue
      obtain ⟨hdue1, hdue2⟩ := hdue
      simp only [grace_over, List.all_cons, Bool.and_eq_true] at hgrace
      obtain ⟨hexp, hg2⟩ := hgrace
      obtain ⟨t1, t2, t3, t4⟩ := touching_poll_expired cfg now r s hdue1 hsl hrs hexp
      have hd := position_delta_up cfg s.touch_processed.b3 r.b3 (by omega) (by omega)
      simp only [run, rotations_append]
      have hg2' : grace_over (touch_encoder_update cfg now (some r) s).1 ps = true := by
        simp only [grace_over, t1]; exact hg2
      by_cases hfull : r.b3 - s.touch_processed.b3 = cfg.ENCODER_RESOLUTION
      · rw [if_pos hfull] at hd
        rw [hd, if_neg (by decide)] at t3 t4
        have t3' : (touch_encoder_update cfg now (some r) s).1.touch_processed.b3 = r.b3 := by
          rw [t3]; omega
        have hih := ih (touch_encoder_update cfg now (some r) s).1 r.b3 (by rw [t2]; exact hrs)
          (by rw [t3']) (by rw [t3']; omega) hrest hdue2 hg2'
        rw [hih, t4, t3']
        have hu : position_u_delta (-1) = 1 := by decide
        have hc : decide (r.b3 > s.touch_processed.b3) = true := by
          rw [decide_eq_true_eq]; omega
        rw [hu, hc, List.append_replicate_replicate]
        congr 1
        have hlen : prev - s.touch_processed.b3 + (List.length (Poll.mk now (some r) :: ps)) =
            cfg.ENCODER_RESOLUTION + ps.length := by
          rw [List.length_cons]; omega
        rw [hlen, Nat.add_div_left _ hres, Nat.sub_self, Nat.zero_add, Nat.add_comm]
      · rw [if_neg hfull] at hd
        rw [hd, if_pos rfl] at t3 t4
        have hih := ih (touch_encoder_update cfg now (some r) s).1 r.b3 (by rw [t2]; exact hrs)
          (by rw [t3]; omega) (by rw [t3]; omega) hrest hdue2 hg2'
        rw [hih, t4, t3]
        simp only [List.replicate_zero, List.nil_append, List.length_cons]
        congr 2
        omega

theorem unit_steps_down_rotations (cfg : Config) (hres : 0 < cfg.ENCODER_RESOLUTION) :
    ∀ (polls : List Poll) (s : State) (prev : Nat),
      s.touch_processed.b0 &&& SLIDER_BIT ≠ 0 → s.touch_processed.b3 ≤ 255 →
      prev ≤ s.touch_processed.b3 → s.touch_processed.b3 - prev < cfg.ENCODER_RESOLUTION →
      unit_steps false prev polls = true → all_due cfg s polls = true →
      grace_over s polls = true →
      rotations (run cfg s polls).2 =
        List.replicate ((s.touch_processed.b3 - prev + polls.length) / cfg.ENCODER_RESOLUTION)
          (Event.touch_encoder_update_user 0 false) := by
  intro polls
  induction polls with
  | nil =>
    intro s prev _ _ _ hlt _ _ _
    simp [run, rotations, Nat.div_eq_of_lt hlt]
  | cons p ps ih =>
    intro s prev hsl h255 hle hlt hsteps hdue hgrace
    obtain ⟨now, rd⟩ := p
    cases rd with
    | none => simp [unit_steps] at hsteps
    | some r =>
      simp only [unit_steps, ne_eq, Bool.false_eq_true, ↓reduceIte, Bool.and_eq_true,
        decide_eq_true_eq] at hsteps
      obtain ⟨⟨hrs, hr3⟩, hrest⟩ := hsteps
      simp only [all_due, Bool.and_eq_true] at hdue
      obtain ⟨hdue1, hdue2⟩ := hdue
      simp only [grace_over, List.all_cons, Bool.and_eq_true] at hgrace
      obtain ⟨hexp, hg2⟩ := hgrace
      obtain ⟨t1, t2, t3, t4⟩ := touching_poll_expired cfg now r s hdue1 hsl hrs hexp
      have hd := position_delta_down cfg s.touch_processed.b3 r.b3 (by omega) (by omega)
      simp only [run, rotations_append]
      have hg2' : grace_over (touch_encoder_update cfg now (some r) s).1 ps = true := by
        simp only [grace_over, t1]; exact hg2
      have hc : decide (r.b3 > s.touch_processed.b3) = false := by
        rw [decide_eq_false_iff_not]; omega
      by_cases hfull : s.touch_processed.b3 - r.b3 = cfg.ENCODER_RESOLUTION
      · rw [if_pos hfull] at hd
        rw [hd, if_neg (by decide)] at t3 t4
        have t3' : (touch_encoder_update cfg now (some r) s).1.touch_processed.b3 = r.b3 := by
          rw [t3]; omega
        have hih := ih (touch_encoder_update cfg now (some r) s).1 r.b3 (by rw [t2]; exact hrs)
          (by rw [t3']; omega) (by rw [t3']) (by rw [t3']; omega) hrest hdue2 hg2'
        rw [hih, t4, t3']
        have hu : position_u_delta 1 = 1 := by decide
        rw [hu, hc, List.append_replicate_replicate]
        congr 1
        have hlen : s.touch_processed.b3 - prev + (List.length (Poll.mk now (some r) :: ps)) =
            cfg.ENCODER_RESOLUTION + ps.length := by
          rw [List.length_cons]; omega
        rw [hlen, Nat.add_div_left _ hres, Nat.sub_self, Nat.zero_add, Nat.add_comm]
      · rw [if_neg hfull] at hd
        rw [hd, if_pos rfl] at t3 t4
        have hih := ih (touch_encoder_update cfg now (some r) s).1 r.b3 (by rw [t2]; exact hrs)
          (by rw [t3]; omega) (by rw [t3]; omega) (by rw [t3]; omega) hrest hdue2 hg2'
        rw [hih, t4, t3]
        simp only [List.replicate_zero, List.nil_append, List.length_cons]
        congr 2
        omega

/-- Unit steps polled after the grace window: for every start position (a byte),
every positive `ENCODER_RESOLUTION` and every sequence of `N` executed polls of a touch (the
slider-active bit set throughout, every read successful) whose raw position
moves by one unit each in the same direction within `0..255`, with the gesture
timer expired at each of these polls (the touch-start grace window is over), the
polls make exactly `N / ENCODER_RESOLUTION` calls of `touch_encoder_update_user`
in total, every one carrying the direction of the movement. -/
theorem remainder_preserved (cfg : Config) (s : State) (up : Bool) (polls : List Poll)
    (hres : 0 < cfg.ENCODER_RESOLUTION)
    (hstart : s.touch_processed.b3 ≤ 255)
    (hactive : s.touch_processed.b0 &&& SLIDER_BIT ≠ 0)
    (hsteps : unit_steps up s.touch_processed.b3 polls = true)
    (hdue : all_due cfg s polls = true)
    (hgrace : grace_over s polls = true) :
    rotations (run cfg s polls).2 =
        List.replicate (polls.length / cfg.ENCODER_RESOLUTION)
          (Event.touch_encoder_update_user 0 up) ∧
      rotate_calls (run cfg s polls).2 = polls.length / cfg.ENCODER_RESOLUTION := by
  have key : rotations (run cfg s polls).2 =
      List.replicate (polls.length / cfg.ENCODER_RESOLUTION)
        (Event.touch_encoder_update_user 0 up) := by
    cases up with
    | true =>
      have h := unit_steps_up_rotations cfg hres polls s s.touch_processed.b3 hactive
        (Nat.le_refl _) (by omega) hsteps hdue hgrace
      rw [h, Nat.sub_self, Nat.zero_add]
    | false =>
      have h := unit_steps_down_rotations cfg hres polls s s.touch_processed.b3 hactive hstart
        (Nat.le_refl _) (by omega) hsteps hdue hgrace
      rw [h, Nat.sub_self, Nat.zero_add]
  refine ⟨key, ?_⟩
  unfold rotate_calls
  unfold rotations at key
  rw [List.countP_eq_length_filter, key, List.length_replicate]

/-- An instance of `remainder_preserved`: nine unit steps upward from position 100 at
resolution 4 give two rotation callbacks. -/
theorem remainder_preserved_witness :
    rotations (run cfg_small (state_touching 100 100) polls_up).2 =
        List.replicate (polls_up.length / 4) (Event.touch_encoder_update_user 0 true) ∧
      rotate_calls (run cfg_small (state_touching 100 100) polls_up).2 = polls_up.length / 4 :=
  remainder_preserved cfg_small (state_touching 100 100) true polls_up (by decide) (by decide)
    (by decide) (by decide) (by decide) (by decide)

/-! ### Movement inside the grace window -/

theorem new_position_up (p m n : Nat) (h : p + n * m ≤ 255) :
    (((p : Int) - (-(m : Int)) * (n : Int)) % 256).toNat = p + n * m := by
  have e : (p : Int) - (-(m : Int)) * (n : Int) = ((p + n * m : Nat) : Int) := by
    push_cast; ring
  rw [e]
  generalize p + n * m = x at h ⊢
  omega

theorem new_position_down (p m n : Nat) (h : n * m ≤ p) (hp : p ≤ 255) :
    (((p : Int) - (m : Int) * (n : Int)) % 256).toNat = p - n * m := by
  have e : (p : Int) - (m : Int) * (n : Int) = ((p - n * m : Nat) : Int) := by
    rw [Int.ofNat_sub h]; push_cast; ring
  rw [e]
  have hx : p - n * m ≤ 255 := Nat.le_trans (Nat.sub_le _ _) hp
  generalize p - n * m = x at hx ⊢
  omega

/-- The position path for a forward movement whose quotient fits `int8_t`: the
processed position advances by a whole number `k` of steps, `k` rotation
callbacks are made, and once the gesture timer has expired less than one step
is left pending. -/
theorem update_position_up (cfg : Config) (now : Nat) (s : State)
    (hres : 0 < cfg.ENCODER_RESOLUTION)
    (hpq : s.touch_processed.b3 ≤ s.touch_raw.b3) (hq : s.touch_raw.b3 ≤ 255)
    (hfit : 2 ≤ cfg.ENCODER_RESOLUTION ∨ s.touch_raw.b3 - s.touch_processed.b3 ≤ 127) :
    ∃ k, (touch_encoder_update_position cfg now s).1.touch_processed.b3 =
          s.touch_processed.b3 + cfg.ENCODER_RESOLUTION * k ∧
        s.touch_processed.b3 + cfg.ENCODER_RESOLUTION * k ≤ s.touch_raw.b3 ∧
        rotations (touch_encoder_update_position cfg now s).2 =
          List.replicate k (Event.touch_encoder_update_user 0 true) ∧
        (timer_expired (timer_read now) s.touch_timer = true →
          s.touch_raw.b3 < s.touch_processed.b3 + cfg.ENCODER_RESOLUTION * k +
            cfg.ENCODER_RESOLUTION) := by
  have hq1 := quotient_fits s.touch_processed.b3 s.touch_raw.b3 cfg.ENCODER_RESOLUTION
    (by omega) hq (by rcases hfit with h | h; exact Or.inl h; exact Or.inr (by omega))
  have htd : Int.tdiv ((s.touch_processed.b3 : Int) - (s.touch_raw.b3 : Int))
      (cfg.ENCODER_RESOLUTION : Int) =
      -(((s.touch_raw.b3 - s.touch_processed.b3) / cfg.ENCODER_RESOLUTION : Nat) : Int) := by
    rw [tdiv_sub_cast]
    split
    · next h =>
      have : s.touch_raw.b3 = s.touch_processed.b3 := by omega
      rw [this]; simp
    · rfl
  have hd : position_delta cfg s.touch_processed.b3 s.touch_raw.b3 =
      -(((s.touch_raw.b3 - s.touch_processed.b3) / cfg.ENCODER_RESOLUTION : Nat) : Int) := by
    unfold position_delta
    rw [toInt8_of_fits _ hq1.1 hq1.2, htd]
  have hm1 := Nat.mul_div_le (s.touch_raw.b3 - s.touch_processed.b3) cfg.ENCODER_RESOLUTION
  have hm2 := Nat.lt_mul_div_succ (s.touch_raw.b3 - s.touch_processed.b3) hres
  rw [htd] at hq1
  clear htd
  generalize hm : (s.touch_raw.b3 - s.touch_processed.b3) / cfg.ENCODER_RESOLUTION = m at *
  unfold touch_encoder_update_position
  simp only
  split
  · next hsup =>
    refine ⟨0, by simp, by simpa using hpq, by simp [rotations], ?_⟩
    intro hexp
    rw [hexp] at hsup
    simp at hsup
  · rw [hd]
    split
    · next h0 =>
      have hm0 : m = 0 := by omega
      refine ⟨0, ?_, by simpa using hpq, by simp [rotations], ?_⟩
      · split <;> simp
      · intro _
        rw [hm0] at hm2
        simp at hm2 ⊢
        omega
    · next h0 =>
      refine ⟨m, ?_, by omega, ?_, ?_⟩
      · have := new_position_up s.touch_processed.b3 m cfg.ENCODER_RESOLUTION (by omega)
        split <;> simpa using this
      · have hu : position_u_delta (-(m : Int)) = m := by
          rw [position_u_delta_of_fits _ hq1.1 hq1.2]; omega
        have hc : decide (s.touch_raw.b3 > s.touch_processed.b3) = true := by
          rw [decide_eq_true_eq]
          by_contra hle
          have : s.touch_raw.b3 - s.touch_processed.b3 = 0 := by omega
          rw [this] at hm
          simp at hm
          omega
        rw [hu, hc]
        simp [rotations, List.filter_cons, Event.isRotate, List.filter_replicate]
      · intro _
        rw [Nat.mul_succ] at hm2
        omega

/-- An executed poll during a touch (slider-active bit set before and after)
reduces to the position block on the snapshot just read. -/
theorem touching_poll (cfg : Config) (now : Nat) (r : Regs) (s : State)
    (hdue : poll_due cfg now s = true)
    (hsl : s.touch_processed.b0 &&& SLIDER_BIT ≠ 0) (hrs : r.b0 &&& SLIDER_BIT ≠ 0) :
    ∃ b : State, b.touch_raw = r ∧ b.touch_processed.b0 = r.b0 ∧
      b.touch_processed.b3 = s.touch_processed.b3 ∧ b.touch_timer = s.touch_timer ∧
      (touch_encoder_update cfg now (some r) s).1 = (position_change cfg now b).1 ∧
      rotations (touch_encoder_update cfg now (some r) s).2 =
        rotations (position_change cfg now b).2 := by
  unfold touch_encoder_update
  rw [if_pos hdue]
  unfold poll_body
  simp only
  obtain ⟨r1, r2, r3, -, -, r6, -, -⟩ := poll_read_state cfg now (some r) s
  have hraw : raw_seen (some r) s = r := rfl
  rw [hraw] at r2
  generalize (poll_read cfg now (some r) s).1 = a at r1 r2 r3 r6
  have hcb := callbacks_poll_read cfg now (some r) s
  generalize (poll_read cfg now (some r) s).2 = ea at hcb
  have hkeep : a.touch_raw.b0 &&& SLIDER_BIT = a.touch_processed.b0 &&& SLIDER_BIT := by
    rw [r1, r2]
    rcases and_slider_cases r.b0 with h | h
    · exact absurd h hrs
    · rcases and_slider_cases s.touch_processed.b0 with h2 | h2
      · exact absurd h2 hsl
      · rw [h, h2]
  obtain ⟨hst, hsc⟩ := status_change_slider_kept cfg now a hkeep
  rw [hst]
  generalize (status_change cfg now a).2 = eb at hsc
  refine ⟨{ a with touch_processed := { a.touch_processed with b0 := a.touch_raw.b0 } },
    r2, by simp [r2], r6, r3, rfl, ?_⟩
  simp only [rotations_append, rotations_of_no_callbacks _ hcb, rotations_of_no_callbacks _ hsc,
    List.nil_append]

/-- An executed poll of a touch whose raw position is at or above the processed
one: a whole number of steps is decoded, nothing is added, and with the gesture
timer expired less than one step stays pending. -/
theorem poll_up (cfg : Config) (now : Nat) (r : Regs) (s : State)
    (hres : 0 < cfg.ENCODER_RESOLUTION)
    (hdue : poll_due cfg now s = true)
    (hsl : s.touch_processed.b0 &&& SLIDER_BIT ≠ 0) (hrs : r.b0 &&& SLIDER_BIT ≠ 0)
    (hpq : s.touch_processed.b3 ≤ r.b3) (hq : r.b3 ≤ 255)
    (hfit : 2 ≤ cfg.ENCODER_RESOLUTION ∨ r.b3 - s.touch_processed.b3 ≤ 127) :
    (touch_encoder_update cfg now (some r) s).1.touch_processed.b0 = r.b0 ∧
    ∃ k, (touch_encoder_update cfg now (some r) s).1.touch_processed.b3 =
          s.touch_processed.b3 + cfg.ENCODER_RESOLUTION * k ∧
        s.touch_processed.b3 + cfg.ENCODER_RESOLUTION * k ≤ r.b3 ∧
        rotations (touch_encoder_update cfg now (some r) s).2 =
          List.replicate k (Event.touch_encoder_update_user 0 true) ∧
        (timer_expired (timer_read now) s.touch_timer = true →
          r.b3 < s.touch_processed.b3 + cfg.ENCODER_RESOLUTION * k +
            cfg.ENCODER_RESOLUTION) := by
  obtain ⟨b, b1, b2, b3, b4, hst, hrot⟩ := touching_poll cfg now r s hdue hsl hrs
  rw [hst, hrot]
  obtain ⟨-, f2, -⟩ := position_change_frame cfg now b
  refine ⟨by rw [f2, b2], ?_⟩
  unfold position_change
  split
  · obtain ⟨k, k1, k2, k3, k4⟩ := update_position_up cfg now b hres (by rw [b1, b3]; exact hpq)
      (by rw [b1]; exact hq) (by rw [b1, b3]; exact hfit)
    simp only [b1, b3, b4] at k1 k2 k4
    exact ⟨k, k1, k2, k3, k4⟩
  · next hno =>
    have heq : s.touch_processed.b3 = r.b3 := by
      by_contra hne
      apply hno
      rw [b1, b3]
      exact ⟨hrs, hne⟩
    refine ⟨0, by simp [b3], by simp [heq], by simp [rotations], ?_⟩
    intro _
    rw [heq]
    omega

theorem unit_steps_append_up (a b : List Poll) :
    ∀ prev, unit_steps true prev (a ++ b) =
      (unit_steps true prev a && unit_steps true (prev + a.length) b) := by
  induction a with
  | nil => intro prev; simp [unit_steps]
  | cons p ps ih =>
    intro prev
    obtain ⟨now, rd⟩ := p
    cases rd with
    | none => simp [unit_steps]
    | some r =>
      simp only [List.cons_append, unit_steps, List.append_eq, ↓reduceIte, List.length_cons]
      by_cases h : r.b3 = prev + 1
      · rw [h, ih, show prev + 1 + ps.length = prev + (ps.length + 1) by omega]
        simp [Bool.and_assoc]
      · simp [h]

theorem all_due_append (cfg : Config) (a b : List Poll) :
    ∀ s, all_due cfg s (a ++ b) = (all_due cfg s a && all_due cfg (run cfg s a).1 b) := by
  induction a with
  | nil => intro s; simp [all_due, run]
  | cons p ps ih =>
    intro s
    simp [all_due, run, ih, Bool.and_assoc]

/-- Unit steps upward, whatever the gesture timer: the rotation callbacks made so
far account exactly for the distance the processed position has moved, and the
processed position never overtakes the raw one. -/
theorem unit_steps_up_pending (cfg : Config) (hres : 0 < cfg.ENCODER_RESOLUTION) :
    ∀ (polls : List Poll) (s : State) (prev : Nat),
      s.touch_processed.b0 &&& SLIDER_BIT ≠ 0 →
      s.touch_processed.b3 ≤ prev →
      unit_steps true prev polls = true → all_due cfg s polls = true →
      (2 ≤ cfg.ENCODER_RESOLUTION ∨ prev - s.touch_processed.b3 + polls.length ≤ 127) →
      (run cfg s polls).1.touch_processed.b0 &&& SLIDER_BIT ≠ 0 ∧
      ∃ k, rotations (run cfg s polls).2 =
          List.replicate k (Event.touch_encoder_update_user 0 true) ∧
        (run cfg s polls).1.touch_processed.b3 =
          s.touch_processed.b3 + cfg.ENCODER_RESOLUTION * k ∧
        s.touch_processed.b3 + cfg.ENCODER_RESOLUTION * k ≤ prev + polls.length := by
  intro polls
  induction polls with
  | nil =>
    intro s prev hsl hle _ _ _
    exact ⟨hsl, 0, by simp [run, rotations], by simp [run], by simpa using hle⟩
  | cons p ps ih =>
    intro s prev hsl hle hsteps hdue hfit
    obtain ⟨now, rd⟩ := p
    cases rd with
    | none => simp [unit_steps] at hsteps
    | some r =>
      simp only [unit_steps, ne_eq, ↓reduceIte, Bool.and_eq_true, decide_eq_true_eq] at hsteps
      obtain ⟨⟨hrs, hr3, hr255⟩, hrest⟩ := hsteps
      simp only [all_due, Bool.and_eq_true] at hdue
      obtain ⟨hdue1, hdue2⟩ := hdue
      simp only [List.length_cons] at hfit
      obtain ⟨t0, k1, t1, t2, t3, -⟩ := poll_up cfg now r s hres hdue1 hsl hrs (by omega) hr255
        (by rcases hfit with h | h; exact Or.inl h; exact Or.inr (by omega))
      obtain ⟨u0, k2, u1, u2, u3⟩ := ih (touch_encoder_update cfg now (some r) s).1 r.b3
        (by rw [t0]; exact hrs) (by rw [t1]; exact t2) hrest hdue2
        (by rcases hfit with h | h; exact Or.inl h; exact Or.inr (by rw [t1]; omega))
      simp only [run, rotations_append]
      refine ⟨u0, k1 + k2, ?_, ?_, ?_⟩
      · rw [t3, u1, List.append_replicate_replicate]
      · rw [u2, t1, Nat.mul_add]; omega
      · rw [t1] at u3
        rw [Nat.mul_add, List.length_cons]
        omega

/-- The position path for a backward movement whose quotient fits `int8_t`. -/
theorem update_position_down (cfg : Config) (now : Nat) (s : State)
    (hres : 0 < cfg.ENCODER_RESOLUTION)
    (hqp : s.touch_raw.b3 ≤ s.touch_processed.b3) (hp : s.touch_processed.b3 ≤ 255)
    (hfit : 2 ≤ cfg.ENCODER_RESOLUTION ∨ s.touch_processed.b3 - s.touch_raw.b3 ≤ 127) :
    ∃ k, (touch_encoder_update_position cfg now s).1.touch_processed.b3 +
          cfg.ENCODER_RESOLUTION * k = s.touch_processed.b3 ∧
        s.touch_raw.b3 + cfg.ENCODER_RESOLUTION * k ≤ s.touch_processed.b3 ∧
        rotations (touch_encoder_update_position cfg now s).2 =
          List.replicate k (Event.touch_encoder_update_user 0 false) ∧
        (timer_expired (timer_read now) s.touch_timer = true →
          s.touch_processed.b3 < s.touch_raw.b3 + cfg.ENCODER_RESOLUTION * k +
            cfg.ENCODER_RESOLUTION) := by
  have hq1 := quotient_fits s.touch_processed.b3 s.touch_raw.b3 cfg.ENCODER_RESOLUTION
    hp (by omega) (by rcases hfit with h | h; exact Or.inl h; exact Or.inr (by omega))
  have htd : Int.tdiv ((s.touch_processed.b3 : Int) - (s.touch_raw.b3 : Int))
      (cfg.ENCODER_RESOLUTION : Int) =
      (((s.touch_processed.b3 - s.touch_raw.b3) / cfg.ENCODER_RESOLUTION : Nat) : Int) := by
    rw [tdiv_sub_cast, if_pos hqp]
  have hd : position_delta cfg s.touch_processed.b3 s.touch_raw.b3 =
      (((s.touch_processed.b3 - s.touch_raw.b3) / cfg.ENCODER_RESOLUTION : Nat) : Int) := by
    unfold position_delta
    rw [toInt8_of_fits _ hq1.1 hq1.2, htd]
  have hm1 := Nat.mul_div_le (s.touch_processed.b3 - s.touch_raw.b3) cfg.ENCODER_RESOLUTION
  have hm2 := Nat.lt_mul_div_succ (s.touch_processed.b3 - s.touch_raw.b3) hres
  rw [htd] at hq1
  clear htd
  generalize hm : (s.touch_processed.b3 - s.touch_raw.b3) / cfg.ENCODER_RESOLUTION = m at *
  unfold touch_encoder_update_position
  simp only
  split
  · next hsup =>
    refine ⟨0, by simp, by simpa using hqp, by simp [rotations], ?_⟩
    intro hexp
    rw [hexp] at hsup
    simp at hsup
  · rw [hd]
    split
    · next h0 =>
      have hm0 : m = 0 := by omega
      refine ⟨0, ?_, by simpa using hqp, by simp [rotations], ?_⟩
      · split <;> simp
      · intro _
        rw [hm0] at hm2
        simp at hm2 ⊢
        omega
    · next h0 =>
      refine ⟨m, ?_, by omega, ?_, ?_⟩
      · have := new_position_down s.touch_processed.b3 m cfg.ENCODER_RESOLUTION (by omega) hp
        have hle : cfg.ENCODER_RESOLUTION * m ≤ s.touch_processed.b3 := by omega
        split <;> simp only [this] <;> omega
      · have hu : position_u_delta ((m : Nat) : Int) = m := by
          rw [position_u_delta_of_fits _ hq1.1 hq1.2]; omega
        have hc : decide (s.touch_raw.b3 > s.touch_processed.b3) = false := by
          rw [decide_eq_false_iff_not]; omega
        rw [hu, hc]
        simp [rotations, List.filter_cons, Event.isRotate, List.filter_replicate]
      · intro _
        rw [Nat.mul_succ] at hm2
        omega

/-- An executed poll of a touch whose raw position is at or below the processed
one. -/
theorem poll_down (cfg : Config) (now : Nat) (r : Regs) (s : State)
    (hres : 0 < cfg.ENCODER_RESOLUTION)
    (hdue : poll_due cfg now s = true)
    (hsl : s.touch_processed.b0 &&& SLIDER_BIT ≠ 0) (hrs : r.b0 &&& SLIDER_BIT ≠ 0)
    (hqp : r.b3 ≤ s.touch_processed.b3) (hp : s.touch_processed.b3 ≤ 255)
    (hfit : 2 ≤ cfg.ENCODER_RESOLUTION ∨ s.touch_processed.b3 - r.b3 ≤ 127) :
    (touch_encoder_update cfg now (some r) s).1.touch_processed.b0 = r.b0 ∧
    ∃ k, (touch_encoder_update cfg now (some r) s).1.touch_processed.b3 +
          cfg.ENCODER_RESOLUTION * k = s.touch_processed.b3 ∧
        r.b3 + cfg.ENCODER_RESOLUTION * k ≤ s.touch_processed.b3 ∧
        rotations (touch_encoder_update cfg now (some r) s).2 =
          List.replicate k (Event.touch_encoder_update_user 0 false) ∧
        (timer_expired (timer_read now) s.touch_timer = true →
          s.touch_processed.b3 < r.b3 + cfg.ENCODER_RESOLUTION * k +
            cfg.ENCODER_RESOLUTION) := by
  obtain ⟨b, b1, b2, b3, b4, hst, hrot⟩ := touching_poll cfg now r s hdue hsl hrs
  rw [hst, hrot]
  obtain ⟨-, f2, -⟩ := position_change_frame cfg now b
  refine ⟨by rw [f2, b2], ?_⟩
  unfold position_change
  split
  · obtain ⟨k, k1, k2, k3, k4⟩ := update_position_down cfg now b hres (by rw [b1, b3]; exact hqp)
      (by rw [b3]; exact hp) (by rw [b1, b3]; exact hfit)
    simp only [b1, b3, b4] at k1 k2 k4
    exact ⟨k, k1, k2, k3, k4⟩
  · next hno =>
    have heq : s.touch_processed.b3 = r.b3 := by
      by_contra hne
      apply hno
      rw [b1, b3]
      exact ⟨hrs, hne⟩
    refine ⟨0, by simp [b3], by simp [heq], by simp [rotations], ?_⟩
    intro _
    rw [heq]
    omega

theorem unit_steps_append_down (a b : List Poll) :
    ∀ prev, unit_steps false prev (a ++ b) =
      (unit_steps false prev a && unit_steps false (prev - a.length) b) := by
  induction a with
  | nil => intro prev; simp [unit_steps]
  | cons p ps ih =>
    intro prev
    obtain ⟨now, rd⟩ := p
    cases rd with
    | none => simp [unit_steps]
    | some r =>
      simp only [List.cons_append, unit_steps, List.append_eq, Bool.false_eq_true, ↓reduceIte,
        List.length_cons]
      by_cases h : r.b3 + 1 = prev
      · rw [ih, show prev - (ps.length + 1) = r.b3 - ps.length by omega]
        simp [Bool.and_assoc]
      · simp [h]

/-- Unit steps downward, whatever the gesture timer. -/
theorem unit_steps_down_pending (cfg : Config) (hres : 0 < cfg.ENCODER_RESOLUTION) :
    ∀ (polls : List Poll) (s : State) (prev : Nat),
      s.touch_processed.b0 &&& SLIDER_BIT ≠ 0 → s.touch_processed.b3 ≤ 255 →
      prev ≤ s.touch_processed.b3 →
      unit_steps false prev polls = true → all_due cfg s polls = true →
      (2 ≤ cfg.ENCODER_RESOLUTION ∨ s.touch_processed.b3 - prev + polls.length ≤ 127) →
      (run cfg s polls).1.touch_processed.b0 &&& SLIDER_BIT ≠ 0 ∧
      polls.length ≤ prev ∧
      ∃ k, rotations (run cfg s polls).2 =
          List.replicate k (Event.touch_encoder_update_user 0 false) ∧
        (run cfg s polls).1.touch_processed.b3 + cfg.ENCODER_RESOLUTION * k =
          s.touch_processed.b3 ∧
        prev ≤ (run cfg s polls).1.touch_processed.b3 + polls.length := by
  intro polls
  induction polls with
  | nil =>
    intro s prev hsl _ hle _ _ _
    exact ⟨hsl, by simp, 0, by simp [run, rotations], by simp [run], by simpa [run] using hle⟩
  | cons p ps ih =>
    intro s prev hsl h255 hle hsteps hdue hfit
    obtain ⟨now, rd⟩ := p
    cases rd with
    | none => simp [unit_steps] at hsteps
    | some r =>
      simp only [unit_steps, ne_eq, Bool.false_eq_true, ↓reduceIte, Bool.and_eq_true,
        decide_eq_true_eq] at hsteps
      obtain ⟨⟨hrs, hr3⟩, hrest⟩ := hsteps
      simp only [all_due, Bool.and_eq_true] at hdue
      obtain ⟨hdue1, hdue2⟩ := hdue
      simp only [List.length_cons] at hfit
      obtain ⟨t0, k1, t1, t2, t3, -⟩ := poll_down cfg now r s hres hdue1 hsl hrs (by omega) h255
        (by rcases hfit with h | h; exact Or.inl h; exact Or.inr (by omega))
      obtain ⟨u0, ulen, k2, u1, u2, u3⟩ := ih (touch_encoder_update cfg now (some r) s).1 r.b3
        (by rw [t0]; exact hrs) (by omega) (by omega) hrest hdue2
        (by rcases hfit with h | h; exact Or.inl h; exact Or.inr (by omega))
      simp only [run, rotations_append]
      refine ⟨u0, by rw [List.length_cons]; omega, k1 + k2, ?_, ?_, ?_⟩
      · rw [t3, u1, List.append_replicate_replicate]
      · rw [Nat.mul_add]; omega
      · rw [List.length_cons]
        omega

/-- Movement made inside the grace window is not lost: for a sequence of executed
polls of a touch whose raw position moves by one unit each in the same
direction, beginning in any timer state, if the gesture timer has expired at the
last poll then the polls have made exactly `N / ENCODER_RESOLUTION` rotation
callbacks in total, provided the quotient fits the `int8_t delta`
(`ENCODER_RESOLUTION ≥ 2`, or at most 127 polls). -/
theorem grace_window_catches_up (cfg : Config) (s : State) (up : Bool) (polls : List Poll)
    (last : Poll)
    (hres : 0 < cfg.ENCODER_RESOLUTION)
    (hstart : s.touch_processed.b3 ≤ 255)
    (hactive : s.touch_processed.b0 &&& SLIDER_BIT ≠ 0)
    (hsteps : unit_steps up s.touch_processed.b3 (polls ++ [last]) = true)
    (hdue : all_due cfg s (polls ++ [last]) = true)
    (hfit : 2 ≤ cfg.ENCODER_RESOLUTION ∨ polls.length + 1 ≤ 127)
    (hover : timer_expired (timer_read last.now) (run cfg s polls).1.touch_timer = true) :
    rotations (run cfg s (polls ++ [last])).2 =
      List.replicate ((polls.length + 1) / cfg.ENCODER_RESOLUTION)
        (Event.touch_encoder_update_user 0 up) := by
  rw [all_due_append, Bool.and_eq_true] at hdue
  obtain ⟨hdue1, hdue2⟩ := hdue
  simp only [all_due, Bool.and_true] at hdue2
  obtain ⟨now, rd⟩ := last
  rw [run_append]
  simp only [run, rotations_append, List.append_nil]
  cases up with
  | true =>
    rw [unit_steps_append_up, Bool.and_eq_true] at hsteps
    obtain ⟨hs1, hs2⟩ := hsteps
    cases rd with
    | none => simp [unit_steps] at hs2
    | some r =>
      simp only [unit_steps, ne_eq, ↓reduceIte, Bool.and_true, Bool.and_eq_true,
        decide_eq_true_eq] at hs2
      obtain ⟨hrs, hr3, hr255⟩ := hs2
      obtain ⟨a0, k1, a1, a2, a3⟩ := unit_steps_up_pending cfg hres polls s s.touch_processed.b3
        hactive (Nat.le_refl _) hs1 hdue1
        (by rcases hfit with h | h; exact Or.inl h; exact Or.inr (by omega))
      obtain ⟨-, k2, c1, c2, c3, c4⟩ := poll_up cfg now r (run cfg s polls).1 hres hdue2 a0 hrs
        (by omega) hr255 (by rcases hfit with h | h; exact Or.inl h; exact Or.inr (by omega))
      have c5 := c4 hover
      rw [a1, c3, List.append_replicate_replicate]
      congr 1
      symm
      apply Nat.div_eq_of_lt_le
      · rw [Nat.add_mul, Nat.mul_comm k1, Nat.mul_comm k2]; omega
      · rw [Nat.succ_mul, Nat.add_mul, Nat.mul_comm k1, Nat.mul_comm k2]; omega
  | false =>
    rw [unit_steps_append_down, Bool.and_eq_true] at hsteps
    obtain ⟨hs1, hs2⟩ := hsteps
    cases rd with
    | none => simp [unit_steps] at hs2
    | some r =>
      simp only [unit_steps, ne_eq, Bool.false_eq_true, ↓reduceIte, Bool.and_true,
        Bool.and_eq_true, decide_eq_true_eq] at hs2
      obtain ⟨hrs, hr3⟩ := hs2
      obtain ⟨a0, alen, k1, a1, a2, a3⟩ := unit_steps_down_pending cfg hres polls s
        s.touch_processed.b3 hactive hstart (Nat.le_refl _) hs1 hdue1
        (by rcases hfit with h | h; exact Or.inl h; exact Or.inr (by omega))
      obtain ⟨-, k2, c1, c2, c3, c4⟩ := poll_down cfg now r (run cfg s polls).1 hres hdue2 a0 hrs
        (by omega) (by omega) (by rcases hfit with h | h; exact Or.inl h; exact Or.inr (by omega))
      have c5 := c4 hover
      rw [a1, c3, List.append_replicate_replicate]
      congr 1
      symm
      apply Nat.div_eq_of_lt_le
      · rw [Nat.add_mul, Nat.mul_comm k1, Nat.mul_comm k2]; omega
      · rw [Nat.succ_mul, Nat.add_mul, Nat.mul_comm k1, Nat.mul_comm k2]; omega

/-- An instance of `grace_window_catches_up`: a touch rising at tick 0 on position
100 with `TOUCH_TERM = 10` and dead zone 2, then nine unit steps upward polled
at ticks 1 to 9; the first two are suppressed, the total is two callbacks. -/
theorem grace_window_catches_up_example :
    rotations (run cfg_small (run cfg_small state_ready [⟨0, some ⟨2, 0, 0, 100⟩⟩]).1
        (polls_early ++ [⟨9, some ⟨2, 0, 0, 109⟩⟩])).2 =
      List.replicate ((polls_early.length + 1) / 4) (Event.touch_encoder_update_user 0 true) :=
  grace_window_catches_up cfg_small (run cfg_small state_ready [⟨0, some ⟨2, 0, 0, 100⟩⟩]).1 true
    polls_early ⟨9, some ⟨2, 0, 0, 109⟩⟩ (by decide) (by decide) (by decide) (by decide)
    (by decide) (by decide) (by decide)

/-! ### Remainder preservation from any timer state -/

theorem grace_over_at_last_append (cfg : Config) (last : Poll) (polls : List Poll) :
    ∀ s : State, grace_over_at_last cfg s (polls ++ [last]) =
      timer_expired (timer_read last.now) (run cfg s polls).1.touch_timer := by
  induction polls with
  | nil => intro s; rfl
  | cons q qs ih =>
    intro s
    cases qs with
    | nil => rfl
    | cons q2 qs2 =>
      have h := ih (touch_encoder_update cfg q.now q.rd s).1
      simpa [grace_over_at_last, run] using h

set_option maxRecDepth 100000 in
/-- Claim C5 as stated fails at `ENCODER_RESOLUTION = 1`: with a dead zone of 200
and `TOUCH_TERM = 300`, a touch rises at tick 0 on position 0 and 201 executed
polls follow, the raw position going up one unit each (ticks 1 to 200, then
tick 400, where the gesture timer has expired).  The first 200 polls are
suppressed by the dead zone; the last one decodes a movement of 201, which the
`int8_t delta` holds as 55: the polls make 55 calls of
`touch_encoder_update_user` in total, not 201. -/
theorem unit_steps_lost_beyond_int8 :
    polls_201.length = 201 ∧
    0 < cfg_fine_wide.ENCODER_RESOLUTION ∧
    (run cfg_fine_wide state_ready [⟨0, some ⟨2, 0, 0, 0⟩⟩]).1.touch_processed.b0 &&&
      SLIDER_BIT ≠ 0 ∧
    (run cfg_fine_wide state_ready [⟨0, some ⟨2, 0, 0, 0⟩⟩]).1.touch_processed.b3 = 0 ∧
    unit_steps true 0 polls_201 = true ∧
    all_due cfg_fine_wide (run cfg_fine_wide state_ready [⟨0, some ⟨2, 0, 0, 0⟩⟩]).1
      polls_201 = true ∧
    grace_over_at_last cfg_fine_wide
      (run cfg_fine_wide state_ready [⟨0, some ⟨2, 0, 0, 0⟩⟩]).1 polls_201 = true ∧
    rotate_calls (run cfg_fine_wide (run cfg_fine_wide state_ready [⟨0, some ⟨2, 0, 0, 0⟩⟩]).1
      polls_201).2 = 55 ∧
    polls_201.length / cfg_fine_wide.ENCODER_RESOLUTION = 201 := by
  decide

/-- Claim C5, amended: for every start position (a byte), every positive
`ENCODER_RESOLUTION` and every sequence of `N` executed polls of a touch (the
slider-active bit set throughout, every read successful) whose raw position
moves by one unit each in the same direction within `0..255`, beginning in any
state of the gesture timer (also right after the rising edge, inside the grace
window), such that the quotient fits the `int8_t delta` (`ENCODER_RESOLUTION ≥ 2`,
or `N ≤ 127`): if the gesture timer has expired when the last of the polls is
made, the polls have made exactly `N / ENCODER_RESOLUTION` calls of
`touch_encoder_update_user` in total, every one carrying the direction of the
movement. -/
theorem remainder_preserved_once_grace_is_over (cfg : Config) (s : State) (up : Bool)
    (polls : List Poll)
    (hres : 0 < cfg.ENCODER_RESOLUTION)
    (hstart : s.touch_processed.b3 ≤ 255)
    (hactive : s.touch_processed.b0 &&& SLIDER_BIT ≠ 0)
    (hsteps : unit_steps up s.touch_processed.b3 polls = true)
    (hdue : all_due cfg s polls = true)
    (hfit : 2 ≤ cfg.ENCODER_RESOLUTION ∨ polls.length ≤ 127)
    (hover : grace_over_at_last cfg s polls = true) :
    rotations (run cfg s polls).2 =
        List.replicate (polls.length / cfg.ENCODER_RESOLUTION)
          (Event.touch_encoder_update_user 0 up) ∧
      rotate_calls (run cfg s polls).2 = polls.length / cfg.ENCODER_RESOLUTION := by
  have key : rotations (run cfg s polls).2 =
      List.replicate (polls.length / cfg.ENCODER_RESOLUTION)
        (Event.touch_encoder_update_user 0 up) := by
    rcases List.eq_nil_or_concat polls with h | ⟨init, last, h⟩
    · subst h
      simp [run, rotations]
    · rw [List.concat_eq_append] at h
      subst h
      rw [grace_over_at_last_append] at hover
      rw [List.length_append, List.length_singleton] at hfit ⊢
      exact grace_window_catches_up cfg s up init last hres hstart hactive hsteps hdue hfit hover
  refine ⟨key, ?_⟩
  unfold rotate_calls
  unfold rotations at key
  rw [List.countP_eq_length_filter, key, List.length_replicate]

/-- Witness of `remainder_preserved_once_grace_is_over`: dead zone 50, resolution
4, `TOUCH_TERM = 10`; a touch rises at tick 0 on position 100 and twelve unit
steps upward are polled at ticks 1 to 12.  The polls at ticks 1 to 9 are
suppressed, the poll at tick 10 decodes two steps of the ten units and keeps the
remainder of two, the poll at tick 12 decodes the third step. -/
theorem remainder_preserved_once_grace_is_over_witness :
    rotations (run cfg_wide (run cfg_wide state_ready [⟨0, some ⟨2, 0, 0, 100⟩⟩]).1
        polls_twelve).2 =
        List.replicate 3 (Event.touch_encoder_update_user 0 true) ∧
      rotate_calls (run cfg_wide (run cfg_wide state_ready [⟨0, some ⟨2, 0, 0, 100⟩⟩]).1
        polls_twelve).2 = 3 :=
  remainder_preserved_once_grace_is_over cfg_wide
    (run cfg_wide state_ready [⟨0, some ⟨2, 0, 0, 100⟩⟩]).1 true polls_twelve
    (by decide) (by decide) (by decide) (by decide) (by decide) (by decide) (by decide)

/-- The trace of `remainder_preserved_once_grace_is_over_witness` poll by poll:
the rotation callbacks come at ticks 10 (two) and 12 (one), and the processed
position trails the raw one by the remainder in between. -/
theorem remainder_carried_trace :
    rotate_calls (run cfg_wide (run cfg_wide state_ready [⟨0, some ⟨2, 0, 0, 100⟩⟩]).1
        (polls_twelve.take 9)).2 = 0 ∧
      rotate_calls (run cfg_wide (run cfg_wide state_ready [⟨0, some ⟨2, 0, 0, 100⟩⟩]).1
        (polls_twelve.take 10)).2 = 2 ∧
      (run cfg_wide (run cfg_wide state_ready [⟨0, some ⟨2, 0, 0, 100⟩⟩]).1
        (polls_twelve.take 10)).1.touch_processed.b3 = 108 ∧
      rotate_calls (run cfg_wide (run cfg_wide state_ready [⟨0, some ⟨2, 0, 0, 100⟩⟩]).1
        (polls_twelve.take 11)).2 = 2 ∧
      rotate_calls (run cfg_wide (run cfg_wide state_ready [⟨0, some ⟨2, 0, 0, 100⟩⟩]).1
        polls_twelve).2 = 3 ∧
      (run cfg_wide (run cfg_wide state_ready [⟨0, some ⟨2, 0, 0, 100⟩⟩]).1
        polls_twelve).1.touch_processed.b3 = 112 := by
  decide

/-! ## C6: dead-zone suppression -/

/-- While the gesture timer has not expired, a forward movement (raw at or above
processed) of at most `TOUCH_DEADZONE` is suppressed: no event, no change. -/
theorem deadzone_suppresses_forward (cfg : Config) (now : Nat) (s : State)
    (harm : timer_expired (timer_read now) s.touch_timer = false)
    (hfwd : s.touch_processed.b3 ≤ s.touch_raw.b3) (hr : s.touch_raw.b3 ≤ 255)
    (hdz : s.touch_raw.b3 - s.touch_processed.b3 ≤ cfg.TOUCH_DEADZONE) :
    touch_encoder_update_position cfg now s = (s, []) := by
  unfold touch_encoder_update_position
  simp only [harm, Bool.not_false, true_and]
  rw [if_pos]
  omega

/-- Claim C6 fails on the code for a backward movement: with `TOUCH_DEADZONE = 2`,
after a rising edge at tick 0 on position 100 (deadline tick 10), the poll at
tick 3 enters `touch_encoder_update_position` with the gesture timer not
expired.  A raw position of 99 (one unit backward, magnitude 1) overwrites the
gesture timer with 3, and the release at tick 5 is no longer a tap; a raw
position of 101 (one unit forward) changes nothing and the release is a tap. -/
theorem deadzone_misses_backward_movement :
    timer_expired (timer_read 3)
      (run cfg_small state_ready [⟨0, some ⟨2, 0, 0, 100⟩⟩]).1.touch_timer = false ∧
    (run cfg_small state_ready [⟨0, some ⟨2, 0, 0, 100⟩⟩]).1.touch_timer = 10 ∧
    (run cfg_small state_ready
      [⟨0, some ⟨2, 0, 0, 100⟩⟩, ⟨3, some ⟨2, 0, 0, 99⟩⟩]).1.touch_timer = 3 ∧
    tap_calls (run cfg_small state_ready
      [⟨0, some ⟨2, 0, 0, 100⟩⟩, ⟨3, some ⟨2, 0, 0, 99⟩⟩, ⟨5, some ⟨0, 0, 0, 99⟩⟩]).2 = 0 ∧
    (run cfg_small state_ready
      [⟨0, some ⟨2, 0, 0, 100⟩⟩, ⟨3, some ⟨2, 0, 0, 101⟩⟩]).1.touch_timer = 10 ∧
    tap_calls (run cfg_small state_ready
      [⟨0, some ⟨2, 0, 0, 100⟩⟩, ⟨3, some ⟨2, 0, 0, 101⟩⟩, ⟨5, some ⟨0, 0, 0, 101⟩⟩]).2 = 1 := by
  decide

/-! ## C7: a failed bus read -/

theorem poll_read_failed (cfg : Config) (now : Nat) (s : State)
    (h1 : s.touch_raw.b1 = s.touch_processed.b1) (h2 : s.touch_raw.b2 = s.touch_processed.b2) :
    (poll_read cfg now none s).1 =
        { s with touch_update_timer :=
            (if cfg.TOUCH_UPDATE_INTERVAL > 0 then
              (timer_read now + cfg.TOUCH_UPDATE_INTERVAL) % 65536 else s.touch_update_timer) } ∧
      callbacks (poll_read cfg now none s).2 = [] := by
  refine ⟨?_, callbacks_poll_read cfg now none s⟩
  unfold poll_read read_register i2c_readReg
  obtain ⟨ini, raw, ⟨p0, p1, p2, p3⟩, lp, tt, ut⟩ := s
  simp only at h1 h2
  split <;> simp [h1, h2]

theorem status_change_same (cfg : Config) (now : Nat) (s : State)
    (h0 : s.touch_raw.b0 = s.touch_processed.b0) : status_change cfg now s = (s, []) := by
  unfold status_change
  rw [if_neg (by simpa using h0)]

theorem position_change_poll_timer (cfg : Config) (now x : Nat) (s : State) :
    position_change cfg now { s with touch_update_timer := x } =
      ({ (position_change cfg now s).1 with touch_update_timer := x },
        (position_change cfg now s).2) := by
  unfold position_change touch_encoder_update_position
  simp only
  split
  · split
    · rfl
    · split
      · split <;> rfl
      · split <;> rfl
  · rfl

/-- Claim C7 as stated fails in a state the driver reaches: with
`TOUCH_DEADZONE = 50` and `TOUCH_TERM = 10`, after a rising edge at tick 0 on
position 100 and a movement to 110 polled at tick 3 (suppressed by the dead
zone), a due poll at tick 20 whose read fails decodes the old raw snapshot:
it calls `touch_encoder_update_user_raw` once and `touch_encoder_update_user`
twice and moves the processed position from 100 to 108. -/
theorem failed_read_fires_callbacks :
    poll_due cfg_wide 20
      (run cfg_wide state_ready [⟨0, some ⟨2, 0, 0, 100⟩⟩, ⟨3, some ⟨2, 0, 0, 110⟩⟩]).1 = true ∧
    (run cfg_wide state_ready
      [⟨0, some ⟨2, 0, 0, 100⟩⟩, ⟨3, some ⟨2, 0, 0, 110⟩⟩]).1.touch_processed = ⟨2, 0, 0, 100⟩ ∧
    (touch_encoder_update cfg_wide 20 none
      (run cfg_wide state_ready
        [⟨0, some ⟨2, 0, 0, 100⟩⟩, ⟨3, some ⟨2, 0, 0, 110⟩⟩]).1).1.touch_processed = ⟨2, 0, 0, 108⟩ ∧
    callbacks (touch_encoder_update cfg_wide 20 none
      (run cfg_wide state_ready
        [⟨0, some ⟨2, 0, 0, 100⟩⟩, ⟨3, some ⟨2, 0, 0, 110⟩⟩]).1).2 =
      [Event.touch_encoder_update_user_raw 0, Event.touch_encoder_update_user 0 true,
        Event.touch_encoder_update_user 0 true] := by
  decide

/-- Claim C7, amended: for every driver state in which raw and processed agree
on the status byte and the two key bytes (as they do after every executed
poll, see `poll_body_frame`), a due `touch_encoder_update` whose
`read_register` fails (leaving `touch_raw` as it was) leaves `touch_raw`
unchanged and does exactly what the position block does on the old raw
snapshot; when the slider-active bit of the raw status is clear or the
processed position equals the raw position, it fires no callback and leaves the
processed snapshot and the gesture timer unchanged.  The result of the read is
not tested: decoding is not limited to successful reads. -/
theorem failed_read_runs_position_block (cfg : Config) (now : Nat) (s : State)
    (hdue : poll_due cfg now s = true)
    (h0 : s.touch_raw.b0 = s.touch_processed.b0)
    (h1 : s.touch_raw.b1 = s.touch_processed.b1)
    (h2 : s.touch_raw.b2 = s.touch_processed.b2) :
    (touch_encoder_update cfg now none s).1.touch_raw = s.touch_raw ∧
      (touch_encoder_update cfg now none s).1.touch_processed.b0 = s.touch_processed.b0 ∧
      (touch_encoder_update cfg now none s).1.touch_processed.b1 = s.touch_processed.b1 ∧
      (touch_encoder_update cfg now none s).1.touch_processed.b2 = s.touch_processed.b2 ∧
      (touch_encoder_update cfg now none s).1.touch_processed =
        (position_change cfg now s).1.touch_processed ∧
      (touch_encoder_update cfg now none s).1.touch_timer =
        (position_change cfg now s).1.touch_timer ∧
      callbacks (touch_encoder_update cfg now none s).2 =
        callbacks (position_change cfg now s).2 ∧
      (s.touch_raw.b0 &&& SLIDER_BIT = 0 ∨ s.touch_processed.b3 = s.touch_raw.b3 →
        callbacks (touch_encoder_update cfg now none s).2 = [] ∧
          (touch_encoder_update cfg now none s).1.touch_processed = s.touch_processed ∧
          (touch_encoder_update cfg now none s).1.touch_timer = s.touch_timer) := by
  have hu : touch_encoder_update cfg now none s =
      ({ (position_change cfg now s).1 with touch_update_timer :=
            (if cfg.TOUCH_UPDATE_INTERVAL > 0 then
              (timer_read now + cfg.TOUCH_UPDATE_INTERVAL) % 65536 else s.touch_update_timer) },
        (poll_read cfg now none s).2 ++ [] ++ (position_change cfg now s).2) := by
    unfold touch_encoder_update
    rw [if_pos hdue]
    unfold poll_body
    simp only
    obtain ⟨hr, -⟩ := poll_read_failed cfg now s h1 h2
    rw [hr, status_change_same cfg now _ (by simpa using h0)]
    simp only
    rw [position_change_poll_timer]
  obtain ⟨f1, f2, f3, f4, -⟩ := position_change_frame cfg now s
  have hcb : callbacks (touch_encoder_update cfg now none s).2 =
      callbacks (position_change cfg now s).2 := by
    rw [hu]
    simp only [callbacks_append, callbacks_poll_read, List.append_nil, List.nil_append]
  refine ⟨by rw [hu]; exact f1, by rw [hu]; exact f2, by rw [hu]; exact f3, by rw [hu]; exact f4,
    by rw [hu], by rw [hu], hcb, ?_⟩
  intro hidle
  have hpc : position_change cfg now s = (s, []) := by
    unfold position_change
    rw [if_neg]
    rintro ⟨ha, hb⟩
    rcases hidle with h | h
    · exact ha h
    · exact hb h
  rw [hcb, hu, hpc]
  exact ⟨rfl, rfl, rfl⟩

/-- Witness of `failed_read_runs_position_block`: a touch resting on position
100, failed read at tick 40. -/
theorem failed_read_runs_position_block_witness :
    callbacks (touch_encoder_update cfg_small 40 none (state_touching 100 100)).2 = [] ∧
      (touch_encoder_update cfg_small 40 none (state_touching 100 100)).1.touch_processed =
        (state_touching 100 100).touch_processed ∧
      (touch_encoder_update cfg_small 40 none (state_touching 100 100)).1.touch_timer =
        (state_touching 100 100).touch_timer :=
  (failed_read_runs_position_block cfg_small 40 (state_touching 100 100) (by decide) rfl rfl
    rfl).2.2.2.2.2.2.2 (Or.inr rfl)

/-! ## C8: initialization is all-or-nothing -/

theorem run_calls_uninitialized (cfg : Config) (calls : List Call) (s : State)
    (h : s.touch_initialized = false) : run_calls cfg s calls = (s, []) := by
  induction calls with
  | nil => rfl
  | cons c cs ih =>
    have hc : c.perform cfg s = (s, []) := by
      cases c with
      | update now rd => simp [Call.perform, touch_encoder_update, poll_due, h]
      | calibrate ok => simp [Call.perform, touch_encoder_calibrate, h]
    simp [run_calls, hc, ih]

/-- Claim C8: `touch_encoder_init` attempts the five configuration writes
(`QT_SLIDER_OPTION = 0x80`, `QT_TTD = 4`, `QT_ATD = 1`, `QT_DI = 4`, `QT_TRD = 0`)
in that order whatever their outcomes `w 0 .. w 4`, and sets `touch_initialized`
to the conjunction of the outcomes; if any of the five fails,
`touch_initialized` is false and every subsequent sequence of
`touch_encoder_update` and `touch_encoder_calibrate` calls produces no event (no
bus transaction, no callback) and leaves the state unchanged. -/
theorem init_all_or_nothing (cfg : Config) (w : Nat → Bool) (s : State) (calls : List Call) :
    bus_transactions (touch_encoder_init w s).2 =
        [Event.i2c_writeReg QT_SLIDER_OPTION 0x80 (w 0), Event.i2c_writeReg QT_TTD 4 (w 1),
          Event.i2c_writeReg QT_ATD 1 (w 2), Event.i2c_writeReg QT_DI 4 (w 3),
          Event.i2c_writeReg QT_TRD 0 (w 4)] ++
        (if (touch_encoder_init w s).1.touch_initialized then
          [Event.i2c_writeReg QT_CALIBRATE 0x01 (w 5)] else []) ∧
      (touch_encoder_init w s).1.touch_initialized = (w 0 && w 1 && w 2 && w 3 && w 4) ∧
      ((∃ i, i < 5 ∧ w i = false) →
        (touch_encoder_init w s).1.touch_initialized = false ∧
          run_calls cfg (touch_encoder_init w s).1 calls = ((touch_encoder_init w s).1, [])) := by
  have hinit : (touch_encoder_init w s).1.touch_initialized = (w 0 && w 1 && w 2 && w 3 && w 4) := by
    unfold touch_encoder_init touch_encoder_calibrate write_register8
    simp only
    split <;> rfl
  refine ⟨?_, hinit, ?_⟩
  · rw [hinit]
    unfold touch_encoder_init touch_encoder_calibrate write_register8 bus_transactions
    cases w 0 <;> cases w 1 <;> cases w 2 <;> cases w 3 <;> cases w 4 <;> cases w 5 <;>
      simp [Event.isBus]
  · rintro ⟨i, hi, hw⟩
    have hfalse : (touch_encoder_init w s).1.touch_initialized = false := by
      rw [hinit]
      interval_cases i <;> simp [hw]
    exact ⟨hfalse, run_calls_uninitialized cfg calls _ hfalse⟩

/-- Witness of `init_all_or_nothing`: the third configuration write fails. -/
theorem init_all_or_nothing_witness :
    (∃ i, i < 5 ∧ (fun n => n != 2) i = false) ∧
      (touch_encoder_init (fun n => n != 2) State.init).1.touch_initialized = false ∧
      run_calls cfg_small (touch_encoder_init (fun n => n != 2) State.init).1
          [Call.update 40 (some ⟨2, 0, 0, 100⟩), Call.calibrate true, Call.update 80 none] =
        ((touch_encoder_init (fun n => n != 2) State.init).1, []) :=
  ⟨⟨2, by decide, by decide⟩,
    (init_all_or_nothing cfg_small (fun n => n != 2) State.init
      [Call.update 40 (some ⟨2, 0, 0, 100⟩), Call.calibrate true, Call.update 80 none]).2.2
      ⟨2, by decide, by decide⟩⟩

/-! ## C9: scheduler idempotence -/

theorem bus_reads_append (a b : List Event) : bus_reads (a ++ b) = bus_reads a + bus_reads b := by
  simp [bus_reads]

theorem bus_reads_poll_read (cfg : Config) (now : Nat) (rd : Option Regs) (s : State) :
    bus_reads (poll_read cfg now rd s).2 = 1 := by
  cases rd <;> simp [poll_read, read_register, i2c_readReg, bus_reads, Event.isRead]

theorem bus_reads_status_diagnostics (d st : Nat) : bus_reads (status_diagnostics d st) = 0 := by
  unfold status_diagnostics bus_reads
  split <;> split <;> simp [Event.isRead]

theorem bus_reads_status_change (cfg : Config) (now : Nat) (s : State) :
    bus_reads (status_change cfg now s).2 = 0 := by
  unfold status_change touch_encoder_update_tapped
  split
  · simp only
    split
    · rw [bus_reads_append, bus_reads_status_diagnostics]
      split
      · rfl
      · split <;> simp [bus_reads, Event.isRead]
    · exact bus_reads_status_diagnostics _ _
  · rfl

theorem bus_reads_position_change (cfg : Config) (now : Nat) (s : State) :
    bus_reads (position_change cfg now s).2 = 0 := by
  unfold position_change touch_encoder_update_position bus_reads
  simp only
  split
  · split
    · rfl
    · split
      · rfl
      · simp [List.countP_cons, List.countP_replicate, Event.isRead]
  · rfl

/-- An executed poll performs exactly one bus read. -/
theorem bus_reads_poll_body (cfg : Config) (now : Nat) (rd : Option Regs) (s : State) :
    bus_reads (poll_body cfg now rd s).2 = 1 := by
  unfold poll_body
  simp only [bus_reads_append, bus_reads_poll_read, bus_reads_status_change,
    bus_reads_position_change]

/-- After a poll executed at tick `t`, a call at a tick of `[t, t + interval)` does
not pass the scheduler test. -/
theorem not_due_in_window (cfg : Config) (t t2 : Nat) (s : State)
    (hpos : 0 < cfg.TOUCH_UPDATE_INTERVAL) (hmax : cfg.TOUCH_UPDATE_INTERVAL ≤ 32769)
    (hut : s.touch_update_timer = (timer_read t + cfg.TOUCH_UPDATE_INTERVAL) % 65536)
    (h1 : t ≤ t2) (h2 : t2 < t + cfg.TOUCH_UPDATE_INTERVAL) : poll_due cfg t2 s = false := by
  unfold poll_due
  have hz : (cfg.TOUCH_UPDATE_INTERVAL == 0) = false := by
    rw [beq_eq_false_iff_ne]; omega
  have he : timer_expired (timer_read t2) s.touch_update_timer = false := by
    rw [hut]
    unfold timer_expired timer_read
    rw [decide_eq_false_iff_not]
    omega
  rw [hz, he]
  simp

theorem run_not_due (cfg : Config) (s : State) (polls : List Poll)
    (h : ∀ p ∈ polls, poll_due cfg p.now s = false) : run cfg s polls = (s, []) := by
  induction polls with
  | nil => rfl
  | cons p ps ih =>
    have hp : touch_encoder_update cfg p.now p.rd s = (s, []) := by
      unfold touch_encoder_update
      rw [h p (List.mem_cons_self _ _)]
      rfl
    simp only [run, hp, List.nil_append]
    exact ih (fun q hq => h q (List.mem_cons_of_mem _ hq))

/-- Claim C9: for every state in which a `touch_encoder_update` call at tick `t`
passes the scheduler test (the driver is initialized and the poll is due), with
the scheduler compiled in and the interval within the range of the 16-bit timer
comparison (`0 < TOUCH_UPDATE_INTERVAL ≤ 32769`, the default being 33): the call
performs exactly one bus read and sets the poll deadline to
`t + TOUCH_UPDATE_INTERVAL` in 16-bit arithmetic, every sequence of further
calls at ticks `t'` with `t ≤ t' < t + TOUCH_UPDATE_INTERVAL` produces no event
and leaves the state unchanged, and all these calls together perform exactly
one bus read. -/
theorem scheduler_idempotent (cfg : Config) (t : Nat) (rd : Option Regs) (s : State)
    (further : List Poll)
    (hpos : 0 < cfg.TOUCH_UPDATE_INTERVAL) (hmax : cfg.TOUCH_UPDATE_INTERVAL ≤ 32769)
    (hdue : poll_due cfg t s = true)
    (hwin : ∀ p ∈ further, t ≤ p.now ∧ p.now < t + cfg.TOUCH_UPDATE_INTERVAL) :
    bus_reads (touch_encoder_update cfg t rd s).2 = 1 ∧
      (touch_encoder_update cfg t rd s).1.touch_update_timer =
        (timer_read t + cfg.TOUCH_UPDATE_INTERVAL) % 65536 ∧
      run cfg (touch_encoder_update cfg t rd s).1 further =
        ((touch_encoder_update cfg t rd s).1, []) ∧
      bus_reads (run cfg s (Poll.mk t rd :: further)).2 = 1 := by
  have hu : touch_encoder_update cfg t rd s = poll_body cfg t rd s := by
    unfold touch_encoder_update
    rw [if_pos hdue]
  have hut : (touch_encoder_update cfg t rd s).1.touch_update_timer =
      (timer_read t + cfg.TOUCH_UPDATE_INTERVAL) % 65536 := by
    rw [hu, (poll_body_frame cfg t rd s).2.2.2.2.2, if_pos hpos]
  have hreads : bus_reads (touch_encoder_update cfg t rd s).2 = 1 := by
    rw [hu]; exact bus_reads_poll_body cfg t rd s
  have hrun : run cfg (touch_encoder_update cfg t rd s).1 further =
      ((touch_encoder_update cfg t rd s).1, []) := by
    apply run_not_due
    intro p hp
    exact not_due_in_window cfg t p.now _ hpos hmax hut (hwin p hp).1 (hwin p hp).2
  refine ⟨hreads, hut, hrun, ?_⟩
  simp only [run, hrun, List.append_nil]
  exact hreads

/-- Witness of `scheduler_idempotent`: interval 33, a poll at tick 65530 and three
further calls at ticks 65530, 65540 and 65562, across the wrap of the 16-bit
counter. -/
theorem scheduler_idempotent_witness :
    bus_reads (touch_encoder_update cfg_interval_33 65530 (some ⟨2, 0, 0, 100⟩) state_late).2 = 1 ∧
      (touch_encoder_update cfg_interval_33 65530
        (some ⟨2, 0, 0, 100⟩) state_late).1.touch_update_timer = (timer_read 65530 + 33) % 65536 ∧
      run cfg_interval_33
          (touch_encoder_update cfg_interval_33 65530 (some ⟨2, 0, 0, 100⟩) state_late).1
          [⟨65530, some ⟨0, 0, 0, 7⟩⟩, ⟨65540, none⟩, ⟨65562, some ⟨2, 0, 0, 50⟩⟩] =
        ((touch_encoder_update cfg_interval_33 65530 (some ⟨2, 0, 0, 100⟩) state_late).1, []) ∧
      bus_reads (run cfg_interval_33 state_late
          (Poll.mk 65530 (some ⟨2, 0, 0, 100⟩) ::
            [⟨65530, some ⟨0, 0, 0, 7⟩⟩, ⟨65540, none⟩, ⟨65562, some ⟨2, 0, 0, 50⟩⟩])).2 = 1 :=
  scheduler_idempotent cfg_interval_33 65530 (some ⟨2, 0, 0, 100⟩) state_late
    [⟨65530, some ⟨0, 0, 0, 7⟩⟩, ⟨65540, none⟩, ⟨65562, some ⟨2, 0, 0, 50⟩⟩]
    (by decide) (by decide) (by decide) (by decide)

/-! ## C10: key bitmap copy-through and accessors -/

theorem raw_seen_wf (rd : Option Regs) (s : State) (hs : s.touch_raw.WF)
    (hrd : ∀ r, rd = some r → r.WF) : (raw_seen rd s).WF := by
  cases rd with
  | none => exact hs
  | some r => exact hrd r rfl

theorem update_raw_wf (cfg : Config) (now : Nat) (rd : Option Regs) (s : State)
    (hs : s.touch_raw.WF) (hrd : ∀ r, rd = some r → r.WF) :
    (touch_encoder_update cfg now rd s).1.touch_raw.WF := by
  unfold touch_encoder_update
  split
  · rw [(poll_body_frame cfg now rd s).1]
    exact raw_seen_wf rd s hs hrd
  · exact hs

theorem run_raw_wf (cfg : Config) (polls : List Poll) :
    ∀ (s : State), s.touch_raw.WF → reads_wf polls = true → (run cfg s polls).1.touch_raw.WF := by
  induction polls with
  | nil => intro s hs _; exact hs
  | cons p ps ih =>
    intro s hs hwf
    simp only [reads_wf, List.all_cons, Bool.and_eq_true] at hwf
    obtain ⟨hp, hps⟩ := hwf
    simp only [run]
    apply ih _ _ hps
    apply update_raw_wf cfg p.now p.rd s hs
    intro r hr
    rw [hr] at hp
    simpa using hp

theorem keys_value (b1 b2 : Nat) (h1 : b1 < 256) (h2 : b2 < 256) :
    ((b1 <<< 8) ||| b2) % 65536 = 256 * b1 + b2 := by
  have h := Nat.mul_add_lt_is_or (show b2 < 2 ^ 8 by omega) b1
  rw [Nat.shiftLeft_eq, Nat.mul_comm b1 (2 ^ 8), ← h]
  omega

/-- Claim C10: for every sequence of polls (reads delivering bytes, or failing)
and every further poll that executes a read, after that poll `touch_raw` is the
most recent raw snapshot and `touch_encoder_keys` returns
`256 * raw[1] + raw[2]` for it, with no assumption on the status byte, the
slider position or the gesture timer; the three accessors return the processed
bytes and leave the state as it is. -/
theorem keys_copy_through (cfg : Config) (s : State) (polls : List Poll) (p : Poll)
    (hraw : s.touch_raw.WF) (hreads : reads_wf (polls ++ [p]) = true)
    (hdue : poll_due cfg p.now (run cfg s polls).1 = true) :
    (run cfg s (polls ++ [p])).1.touch_raw = raw_seen p.rd (run cfg s polls).1 ∧
      (touch_encoder_keys (run cfg s (polls ++ [p])).1).1 =
        256 * (run cfg s (polls ++ [p])).1.touch_raw.b1 +
          (run cfg s (polls ++ [p])).1.touch_raw.b2 ∧
      (touch_encoder_keys (run cfg s (polls ++ [p])).1).2 = (run cfg s (polls ++ [p])).1 ∧
      touch_encoder_status (run cfg s (polls ++ [p])).1 =
        ((run cfg s (polls ++ [p])).1.touch_processed.b0, (run cfg s (polls ++ [p])).1) ∧
      touch_encoder_position (run cfg s (polls ++ [p])).1 =
        ((run cfg s (polls ++ [p])).1.touch_processed.b3, (run cfg s (polls ++ [p])).1) := by
  have hwf := run_raw_wf cfg (polls ++ [p]) s hraw hreads
  have hlast : (run cfg s (polls ++ [p])).1 = (poll_body cfg p.now p.rd (run cfg s polls).1).1 := by
    rw [run_append]
    simp only [run, touch_encoder_update, hdue, ↓reduceIte]
  obtain ⟨f1, -, f3, f4, -⟩ := poll_body_frame cfg p.now p.rd (run cfg s polls).1
  rw [← hlast] at f1 f3 f4
  refine ⟨f1, ?_, rfl, rfl, rfl⟩
  unfold touch_encoder_keys
  simp only
  rw [f3, f4, ← f1]
  exact keys_value _ _ hwf.2.1 hwf.2.2.1

/-- Witness of `keys_copy_through`: two polls, then a poll reading the key bytes
`0x0A`, `0xBC`. -/
theorem keys_copy_through_witness :
    (run cfg_small state_ready
        ([⟨0, some ⟨2, 1, 2, 100⟩⟩, ⟨5, none⟩] ++ [⟨9, some ⟨0x82, 0x0A, 0xBC, 7⟩⟩])).1.touch_raw =
        raw_seen (some ⟨0x82, 0x0A, 0xBC, 7⟩)
          (run cfg_small state_ready [⟨0, some ⟨2, 1, 2, 100⟩⟩, ⟨5, none⟩]).1 ∧
      (touch_encoder_keys (run cfg_small state_ready
        ([⟨0, some ⟨2, 1, 2, 100⟩⟩, ⟨5, none⟩] ++ [⟨9, some ⟨0x82, 0x0A, 0xBC, 7⟩⟩])).1).1 =
        256 * 0x0A + 0xBC :=
  ⟨(keys_copy_through cfg_small state_ready [⟨0, some ⟨2, 1, 2, 100⟩⟩, ⟨5, none⟩]
      ⟨9, some ⟨0x82, 0x0A, 0xBC, 7⟩⟩ (by decide) (by decide) (by decide)).1,
    (keys_copy_through cfg_small state_ready [⟨0, some ⟨2, 1, 2, 100⟩⟩, ⟨5, none⟩]
      ⟨9, some ⟨0x82, 0x0A, 0xBC, 7⟩⟩ (by decide) (by decide) (by decide)).2.1⟩

/-! ## C14: touch start -/

/-- Claim C14: on every executed poll where the slider-active bit goes from clear
(processed status) to set (raw status just read), the processed position
becomes the raw position, the gesture timer becomes the tick plus `TOUCH_TERM`
(mod 2^16), the processed status becomes the raw status, and no tap, rotate or
raw-position callback is made on that poll. -/
theorem touch_start_is_not_a_gesture (cfg : Config) (now : Nat) (rd : Option Regs) (s : State)
    (hdue : poll_due cfg now s = true)
    (hclear : s.touch_processed.b0 &&& SLIDER_BIT = 0)
    (hset : (raw_seen rd s).b0 &&& SLIDER_BIT ≠ 0) :
    (touch_encoder_update cfg now rd s).1.touch_processed.b3 = (raw_seen rd s).b3 ∧
      (touch_encoder_update cfg now rd s).1.touch_timer =
        (timer_read now + cfg.TOUCH_TERM) % 65536 ∧
      (touch_encoder_update cfg now rd s).1.touch_processed.b0 = (raw_seen rd s).b0 ∧
      (touch_encoder_update cfg now rd s).1.touch_raw = raw_seen rd s ∧
      callbacks (touch_encoder_update cfg now rd s).2 = [] := by
  obtain ⟨e1, e2, e3⟩ := rising_edge_poll cfg now rd s hdue hclear hset
  have hu : touch_encoder_update cfg now rd s = poll_body cfg now rd s := by
    unfold touch_encoder_update
    rw [if_pos hdue]
  obtain ⟨f1, f2, -⟩ := poll_body_frame cfg now rd s
  rw [← hu] at f1 f2
  exact ⟨e2, e1, f2, f1, e3⟩

/-- Witness of `touch_start_is_not_a_gesture`: a touch starting on position 100,
polled at tick 65530 with `TOUCH_TERM = 10`; the deadline wraps to tick 4. -/
theorem touch_start_is_not_a_gesture_witness :
    (touch_encoder_update cfg_small 65530 (some ⟨2, 0, 0, 100⟩) state_late).1.touch_processed.b3 =
        100 ∧
      (touch_encoder_update cfg_small 65530 (some ⟨2, 0, 0, 100⟩) state_late).1.touch_timer =
        (timer_read 65530 + 10) % 65536 ∧
      (touch_encoder_update cfg_small 65530 (some ⟨2, 0, 0, 100⟩) state_late).1.touch_processed.b0 =
        2 ∧
      (touch_encoder_update cfg_small 65530 (some ⟨2, 0, 0, 100⟩) state_late).1.touch_raw =
        ⟨2, 0, 0, 100⟩ ∧
      callbacks (touch_encoder_update cfg_small 65530 (some ⟨2, 0, 0, 100⟩) state_late).2 = [] :=
  touch_start_is_not_a_gesture cfg_small 65530 (some ⟨2, 0, 0, 100⟩) state_late
    (by decide) (by decide) (by decide)

/-! ## C15: calibration at initialization -/

/-- Claim C15 as stated fails: when the third configuration write fails,
`touch_encoder_init` performs the five configuration writes and no write to
`QT_CALIBRATE` at all. -/
theorem init_skips_calibration_after_failure :
    calibrate_writes (touch_encoder_init (fun n => n != 2) State.init).2 = 0 ∧
      bus_transactions (touch_encoder_init (fun n => n != 2) State.init).2 =
        [Event.i2c_writeReg QT_SLIDER_OPTION 0x80 true, Event.i2c_writeReg QT_TTD 4 true,
          Event.i2c_writeReg QT_ATD 1 false, Event.i2c_writeReg QT_DI 4 true,
          Event.i2c_writeReg QT_TRD 0 true] := by
  decide

/-- Claim C15, amended: `touch_encoder_init` calls `touch_encoder_calibrate` after
the five configuration writes whatever their outcomes, and that call writes
`0x01` to `QT_CALIBRATE` only when `touch_initialized` is set: the calibration
command is issued exactly once, as the last bus transaction, when all five
configuration writes succeed, and not at all when one of them fails. -/
theorem init_calibrates_iff_configured (w : Nat → Bool) (s : State) :
    calibrate_writes (touch_encoder_init w s).2 =
        (if (w 0 && w 1 && w 2 && w 3 && w 4) = true then 1 else 0) ∧
      bus_transactions (touch_encoder_init w s).2 =
        [Event.i2c_writeReg QT_SLIDER_OPTION 0x80 (w 0), Event.i2c_writeReg QT_TTD 4 (w 1),
          Event.i2c_writeReg QT_ATD 1 (w 2), Event.i2c_writeReg QT_DI 4 (w 3),
          Event.i2c_writeReg QT_TRD 0 (w 4)] ++
        (if (w 0 && w 1 && w 2 && w 3 && w 4) = true then
          [Event.i2c_writeReg QT_CALIBRATE 0x01 (w 5)] else []) := by
  unfold touch_encoder_init touch_encoder_calibrate write_register8 bus_transactions
    calibrate_writes
  cases w 0 <;> cases w 1 <;> cases w 2 <;> cases w 3 <;> cases w 4 <;> cases w 5 <;>
    simp [Event.isBus, Event.isCalibrate, QT_CALIBRATE, QT_SLIDER_OPTION, QT_TTD, QT_ATD,
      QT_DI, QT_TRD]

/-! ## C18: zone layout of the default keymap -/

theorem position_callbacks_append (a b : List Event) :
    position_callbacks (a ++ b) = position_callbacks a ++ position_callbacks b := by
  simp [position_callbacks]

theorem position_callbacks_poll_read (cfg : Config) (now : Nat) (rd : Option Regs) (s : State) :
    position_callbacks (poll_read cfg now rd s).2 = [] := by
  cases rd <;>
    simp [poll_read, read_register, i2c_readReg, position_callbacks, Event.isRawNotify,
      Event.isRotate]

theorem position_callbacks_status_diagnostics (d st : Nat) :
    position_callbacks (status_diagnostics d st) = [] := by
  unfold status_diagnostics position_callbacks
  split <;> split <;> simp [Event.isRawNotify, Event.isRotate]

theorem position_callbacks_status_change (cfg : Config) (now : Nat) (s : State) :
    position_callbacks (status_change cfg now s).2 = [] := by
  unfold status_change touch_encoder_update_tapped
  split
  · simp only
    split
    · rw [position_callbacks_append, position_callbacks_status_diagnostics]
      split
      · rfl
      · split <;> simp [position_callbacks, Event.isRawNotify, Event.isRotate]
    · exact position_callbacks_status_diagnostics _ _
  · rfl

/-- The callbacks of `touch_encoder_update_position`: none when the dead zone
holds or the step count is zero, else the raw-position callback followed by the
rotation callbacks. -/
theorem position_callbacks_update_position (cfg : Config) (now : Nat) (s : State) :
    position_callbacks (touch_encoder_update_position cfg now s).2 =
      if dead_zone_holds cfg now s = false ∧
          position_delta cfg s.touch_processed.b3 s.touch_raw.b3 ≠ 0 then
        Event.touch_encoder_update_user_raw 0 ::
          List.replicate
            (position_u_delta (position_delta cfg s.touch_processed.b3 s.touch_raw.b3))
            (Event.touch_encoder_update_user 0 (decide (s.touch_raw.b3 > s.touch_processed.b3)))
      else [] := by
  have hdz : dead_zone_holds cfg now s = false ↔
      ¬((!timer_expired (timer_read now) s.touch_timer) = true ∧
        (((s.touch_raw.b3 : Int) - (s.touch_processed.b3 : Int)) % 256) ≤
          (cfg.TOUCH_DEADZONE : Int)) := by
    unfold dead_zone_holds
    rw [← Bool.not_eq_true, Bool.and_eq_true, decide_eq_true_eq]
  unfold touch_encoder_update_position
  simp only
  by_cases hs : ((!timer_expired (timer_read now) s.touch_timer) = true ∧
      (((s.touch_raw.b3 : Int) - (s.touch_processed.b3 : Int)) % 256) ≤
        (cfg.TOUCH_DEADZONE : Int))
  · have hR : ¬(dead_zone_holds cfg now s = false ∧
        position_delta cfg s.touch_processed.b3 s.touch_raw.b3 ≠ 0) :=
      fun hc => (hdz.mp hc.1) hs
    simp only [hs, hR, and_self, ↓reduceIte]
    rfl
  · by_cases h0 : position_delta cfg s.touch_processed.b3 s.touch_raw.b3 = 0
    · have hR : ¬(dead_zone_holds cfg now s = false ∧
          position_delta cfg s.touch_processed.b3 s.touch_raw.b3 ≠ 0) :=
        fun hc => hc.2 h0
      simp only [hs, h0, ↓reduceIte]
      simp [position_callbacks]
    · have hR : dead_zone_holds cfg now s = false ∧
          position_delta cfg s.touch_processed.b3 s.touch_raw.b3 ≠ 0 := ⟨hdz.mpr hs, h0⟩
      simp only [hs, hR, h0, and_self, ne_eq, not_false_eq_true, ↓reduceIte]
      simp [position_callbacks, List.filter_cons, Event.isRawNotify, Event.isRotate,
        List.filter_replicate]

theorem position_callbacks_position_change (cfg : Config) (now : Nat) (s : State) :
    position_callbacks (position_change cfg now s).2 =
      if position_path_entered s = true ∧ dead_zone_holds cfg now s = false ∧
          position_delta cfg s.touch_processed.b3 s.touch_raw.b3 ≠ 0 then
        Event.touch_encoder_update_user_raw 0 ::
          List.replicate
            (position_u_delta (position_delta cfg s.touch_processed.b3 s.touch_raw.b3))
            (Event.touch_encoder_update_user 0 (decide (s.touch_raw.b3 > s.touch_processed.b3)))
      else [] := by
  unfold position_change position_path_entered
  by_cases he : s.touch_raw.b0 &&& SLIDER_BIT ≠ 0 ∧ s.touch_processed.b3 ≠ s.touch_raw.b3
  · rw [if_pos he, decide_eq_true he]
    simp only [true_and]
    exact position_callbacks_update_position cfg now s
  · rw [if_neg he, decide_eq_false he]
    simp [position_callbacks]

/-- The position callbacks of a `touch_encoder_update` call are those of the
position block on the entry state. -/
theorem position_callbacks_update (cfg : Config) (now : Nat) (rd : Option Regs) (s : State) :
    position_callbacks (touch_encoder_update cfg now rd s).2 =
      if poll_due cfg now s = true then
        position_callbacks (position_change cfg now (entry_state cfg now rd s)).2
      else [] := by
  unfold touch_encoder_update
  cases hdue : poll_due cfg now s
  · simp [position_callbacks]
  · simp only [↓reduceIte]
    unfold poll_body entry_state
    simp only [position_callbacks_append, position_callbacks_poll_read,
      position_callbacks_status_change, List.nil_append]

/-- Claim C11 as stated fails: with `ENCODER_RESOLUTION = 4` and the gesture timer
expired, an executed poll of a touch finds the raw position moved from 100 to
101; the position path is entered, and `touch_encoder_update_user_raw` is not
called. -/
theorem raw_notification_missing_below_one_step :
    poll_due cfg_small 100 (state_touching 100 100) = true ∧
    position_path_entered
      (entry_state cfg_small 100 (some ⟨2, 0, 0, 101⟩) (state_touching 100 100)) = true ∧
    raw_calls (touch_encoder_update cfg_small 100 (some ⟨2, 0, 0, 101⟩)
      (state_touching 100 100)).2 = 0 := by
  decide

/-- Claim C11, amended: on every `touch_encoder_update` call the calls of
`touch_encoder_update_user_raw` and `touch_encoder_update_user` are, in order:
one raw-position call followed by the rotation calls, when the poll is executed,
the position path is entered (slider active, raw position different from the
processed one), its dead-zone return is not taken and the `int8_t` step count
`delta` is not zero; no such call at all otherwise. -/
theorem raw_notification_on_decoded_step (cfg : Config) (now : Nat) (rd : Option Regs)
    (s : State) :
    position_callbacks (touch_encoder_update cfg now rd s).2 =
      if poll_due cfg now s = true ∧
          position_path_entered (entry_state cfg now rd s) = true ∧
          dead_zone_holds cfg now (entry_state cfg now rd s) = false ∧
          position_delta cfg (entry_state cfg now rd s).touch_processed.b3
            (entry_state cfg now rd s).touch_raw.b3 ≠ 0 then
        Event.touch_encoder_update_user_raw 0 ::
          List.replicate
            (position_u_delta
              (position_delta cfg (entry_state cfg now rd s).touch_processed.b3
                (entry_state cfg now rd s).touch_raw.b3))
            (Event.touch_encoder_update_user 0
              (decide ((entry_state cfg now rd s).touch_raw.b3 >
                (entry_state cfg now rd s).touch_processed.b3)))
      else [] := by
  rw [position_callbacks_update, position_callbacks_position_change]
  cases hdue : poll_due cfg now s
  · simp
  · simp

/-- The trace of claim C4 as a poll: processed 100, raw 92, resolution 4 gives the
raw-position callback first, then two rotation callbacks. -/
theorem raw_notification_trace :
    position_callbacks (touch_encoder_update cfg_small 100 (some ⟨2, 0, 0, 92⟩)
        (state_touching 100 100)).2 =
      [Event.touch_encoder_update_user_raw 0, Event.touch_encoder_update_user 0 false,
        Event.touch_encoder_update_user 0 false] := by
  decide

/-! ## C12: status change and the position path -/

/-- The status block when the slider-active bit changed: the position is copied. -/
theorem status_change_edge (cfg : Config) (now : Nat) (s : State)
    (h : s.touch_raw.b0 &&& SLIDER_BIT ≠ s.touch_processed.b0 &&& SLIDER_BIT) :
    (status_change cfg now s).1.touch_processed.b3 = s.touch_raw.b3 := by
  have hne : s.touch_raw.b0 ≠ s.touch_processed.b0 := by
    intro he
    rw [he] at h
    exact h rfl
  have hd : (s.touch_raw.b0 ^^^ s.touch_processed.b0) &&& SLIDER_BIT ≠ 0 :=
    (xor_and_slider _ _).mpr h
  unfold status_change
  rw [if_pos hne]
  simp only
  rw [if_pos hd]
  simp only
  rw [(update_tapped_frame cfg now _).2.1]

/-- Claim C12 as stated fails: an executed poll of a touch (processed status
`0x02`, position 100, gesture timer expired) reads the status `0x82`, in which
only the calibration bit changed, and the position 108.  The raw status differs
from the processed one, yet the position path is entered: the raw-position
callback and two rotation callbacks are made and the processed position becomes
108. -/
theorem status_change_does_not_exclude_rotation :
    poll_due cfg_small 100 (state_touching 100 100) = true ∧
    (0x82 : Nat) ≠ (state_touching 100 100).touch_processed.b0 ∧
    (0x82 : Nat) ^^^ (state_touching 100 100).touch_processed.b0 = CALIBRATION_BIT ∧
    callbacks (touch_encoder_update cfg_small 100 (some ⟨0x82, 0, 0, 108⟩)
        (state_touching 100 100)).2 =
      [Event.touch_encoder_update_user_raw 0, Event.touch_encoder_update_user 0 true,
        Event.touch_encoder_update_user 0 true] ∧
    (touch_encoder_update cfg_small 100 (some ⟨0x82, 0, 0, 108⟩)
      (state_touching 100 100)).1.touch_processed.b3 = 108 := by
  decide

/-- Claim C12, amended: on every executed poll where the slider-active bit of the
raw status differs from that of the processed status, the position path is not
entered: the processed position has become the raw position and no rotate or
raw-position callback is made.  The position test is a separate `if` after the
status block, not its `else` branch: on an executed poll where the
slider-active bit did not change, whether or not other status bits (calibration,
overflow) changed, no tap callback is made and the position path is entered
exactly when the slider is active and the raw position differs from the
processed one; all callbacks of the poll are those of the position block. -/
theorem slider_edge_excludes_position_path (cfg : Config) (now : Nat) (rd : Option Regs)
    (s : State) (hdue : poll_due cfg now s = true) :
    ((raw_seen rd s).b0 &&& SLIDER_BIT ≠ s.touch_processed.b0 &&& SLIDER_BIT →
        position_path_entered (entry_state cfg now rd s) = false ∧
        position_callbacks (touch_encoder_update cfg now rd s).2 = [] ∧
        (touch_encoder_update cfg now rd s).1.touch_processed.b3 = (raw_seen rd s).b3) ∧
      ((raw_seen rd s).b0 &&& SLIDER_BIT = s.touch_processed.b0 &&& SLIDER_BIT →
        position_path_entered (entry_state cfg now rd s) =
          decide ((raw_seen rd s).b0 &&& SLIDER_BIT ≠ 0 ∧
            s.touch_processed.b3 ≠ (raw_seen rd s).b3) ∧
        tap_calls (touch_encoder_update cfg now rd s).2 = 0 ∧
        callbacks (touch_encoder_update cfg now rd s).2 =
          callbacks (position_change cfg now (entry_state cfg now rd s)).2) := by
  obtain ⟨r1, r2, -, -, -, r6, -, -⟩ := poll_read_state cfg now rd s
  have hu : touch_encoder_update cfg now rd s =
      ((position_change cfg now (entry_state cfg now rd s)).1,
        (poll_read cfg now rd s).2 ++ (status_change cfg now (poll_read cfg now rd s).1).2 ++
          (position_change cfg now (entry_state cfg now rd s)).2) := by
    unfold touch_encoder_update
    rw [if_pos hdue]
    rfl
  obtain ⟨sf1, -⟩ := status_change_frame cfg now (poll_read cfg now rd s).1
  constructor
  · intro hedge
    have he3 : (entry_state cfg now rd s).touch_processed.b3 =
        (entry_state cfg now rd s).touch_raw.b3 := by
      unfold entry_state
      rw [status_change_edge cfg now _ (by rw [r1, r2]; exact hedge), sf1]
    have hidle := position_change_idle cfg now (entry_state cfg now rd s) (Or.inr he3)
    refine ⟨?_, ?_, ?_⟩
    · unfold position_path_entered
      rw [decide_eq_false_iff_not]
      rintro ⟨-, hb⟩
      exact hb he3
    · rw [position_callbacks_update, if_pos hdue, hidle]
      rfl
    · rw [hu, hidle]
      simp only
      rw [he3]
      unfold entry_state
      rw [sf1, r2]
  · intro hkeep
    obtain ⟨hst, hsc⟩ := status_change_slider_kept cfg now (poll_read cfg now rd s).1
      (by rw [r1, r2]; exact hkeep)
    refine ⟨?_, ?_, ?_⟩
    · unfold position_path_entered entry_state
      rw [hst]
      simp only [r2, r6]
    · rw [tap_calls_update, if_neg]
      rintro ⟨-, hp, hr, -⟩
      rw [hkeep] at hr
      exact hp hr
    · rw [hu]
      simp only [callbacks_append, callbacks_poll_read, hsc, List.nil_append]

/-- Witness of `slider_edge_excludes_position_path`: the falling edge of a touch
that moved from 100 to 108 makes no position callback. -/
theorem slider_edge_excludes_position_path_witness :
    position_path_entered
        (entry_state cfg_small 100 (some ⟨0, 0, 0, 108⟩) (state_touching 100 100)) = false ∧
      position_callbacks (touch_encoder_update cfg_small 100 (some ⟨0, 0, 0, 108⟩)
        (state_touching 100 100)).2 = [] ∧
      (touch_encoder_update cfg_small 100 (some ⟨0, 0, 0, 108⟩)
        (state_touching 100 100)).1.touch_processed.b3 = 108 :=
  (slider_edge_excludes_position_path cfg_small 100 (some ⟨0, 0, 0, 108⟩)
    (state_touching 100 100) (by decide)).1 (by decide)

/-! ## C16: residual after a rotation step -/

/-- The processed position left by `touch_encoder_update_position` when its
dead-zone return is not taken. -/
theorem update_position_decoded (cfg : Config) (now : Nat) (s : State)
    (hdz : dead_zone_holds cfg now s = false) :
    (touch_encoder_update_position cfg now s).1.touch_processed.b3 =
      (if position_delta cfg s.touch_processed.b3 s.touch_raw.b3 = 0 then s.touch_processed.b3
       else (((s.touch_processed.b3 : Int) -
          position_delta cfg s.touch_processed.b3 s.touch_raw.b3 *
            (cfg.ENCODER_RESOLUTION : Int)) % 256).toNat) := by
  have hs : ¬((!timer_expired (timer_read now) s.touch_timer) = true ∧
      (((s.touch_raw.b3 : Int) - (s.touch_processed.b3 : Int)) % 256) ≤
        (cfg.TOUCH_DEADZONE : Int)) := by
    unfold dead_zone_holds at hdz
    rw [← Bool.not_eq_true, Bool.and_eq_true, decide_eq_true_eq] at hdz
    exact hdz
  unfold touch_encoder_update_position
  simp only
  rw [if_neg hs]
  split
  · split <;> rfl
  · split <;> rfl

/-- The new processed position lies between the old one and the raw one and is
less than one step away from the raw one, for every pair of bytes and every
positive resolution. -/
theorem residual_arith (cfg : Config) (p r : Nat) (hres : 0 < cfg.ENCODER_RESOLUTION)
    (hp : p ≤ 255) (hr : r ≤ 255) :
    ∀ n, n = (if position_delta cfg p r = 0 then p
        else (((p : Int) - position_delta cfg p r * (cfg.ENCODER_RESOLUTION : Int)) % 256).toNat) →
      ((p ≤ n ∧ n ≤ r) ∨ (r ≤ n ∧ n ≤ p)) ∧
        n < r + cfg.ENCODER_RESOLUTION ∧ r < n + cfg.ENCODER_RESOLUTION := by
  intro n hn
  by_cases h1 : cfg.ENCODER_RESOLUTION = 1
  · have hd : position_delta cfg p r = toInt8 ((p : Int) - (r : Int)) := by
      unfold position_delta
      rw [h1]
      simp
    rw [hd, h1] at hn
    unfold toInt8 at hn
    rw [h1]
    split at hn <;> omega
  · have h2 : 2 ≤ cfg.ENCODER_RESOLUTION := by omega
    have hq := quotient_fits p r cfg.ENCODER_RESOLUTION hp hr (Or.inl h2)
    have hd : position_delta cfg p r =
        Int.tdiv ((p : Int) - (r : Int)) (cfg.ENCODER_RESOLUTION : Int) := by
      unfold position_delta
      exact toInt8_of_fits _ hq.1 hq.2
    rw [hd, tdiv_sub_cast] at hn
    by_cases hle : r ≤ p
    · rw [if_pos hle] at hn
      have hm1 := Nat.mul_div_le (p - r) cfg.ENCODER_RESOLUTION
      have hm2 := Nat.lt_mul_div_succ (p - r) hres
      rw [Nat.mul_succ] at hm2
      generalize (p - r) / cfg.ENCODER_RESOLUTION = m at hn hm1 hm2
      have hnp := new_position_down p m cfg.ENCODER_RESOLUTION (by omega) hp
      rw [hnp] at hn
      by_cases hm0 : m = 0
      · subst hm0
        simp only [Nat.mul_zero, Nat.zero_add, Nat.sub_zero] at hn hm2
        split at hn <;> omega
      · rw [if_neg (by omega)] at hn
        generalize cfg.ENCODER_RESOLUTION * m = x at hn hm1 hm2
        omega
    · rw [if_neg hle] at hn
      have hm1 := Nat.mul_div_le (r - p) cfg.ENCODER_RESOLUTION
      have hm2 := Nat.lt_mul_div_succ (r - p) hres
      rw [Nat.mul_succ] at hm2
      generalize (r - p) / cfg.ENCODER_RESOLUTION = m at hn hm1 hm2
      have hnp := new_position_up p m cfg.ENCODER_RESOLUTION (by omega)
      rw [hnp] at hn
      by_cases hm0 : m = 0
      · subst hm0
        simp only [Nat.mul_zero, Nat.zero_add, Nat.add_zero] at hn hm2
        split at hn <;> omega
      · rw [if_neg (by omega)] at hn
        generalize cfg.ENCODER_RESOLUTION * m = x at hn hm1 hm2
        omega

/-- Claim C16: for every positive `ENCODER_RESOLUTION` and every pair of position
bytes, after `touch_encoder_update_position` runs without taking its dead-zone
return, the new processed position lies between the old processed position and
the raw position (inclusive, as natural numbers, no wrap-around) and is less
than `ENCODER_RESOLUTION` away from the raw position; no assumption is made on
the quotient fitting the `int8_t delta`. -/
theorem residual_bound (cfg : Config) (now : Nat) (s : State)
    (hres : 0 < cfg.ENCODER_RESOLUTION)
    (hp : s.touch_processed.b3 ≤ 255) (hr : s.touch_raw.b3 ≤ 255)
    (hdz : dead_zone_holds cfg now s = false) :
    ((s.touch_processed.b3 ≤ (touch_encoder_update_position cfg now s).1.touch_processed.b3 ∧
          (touch_encoder_update_position cfg now s).1.touch_processed.b3 ≤ s.touch_raw.b3) ∨
        (s.touch_raw.b3 ≤ (touch_encoder_update_position cfg now s).1.touch_processed.b3 ∧
          (touch_encoder_update_position cfg now s).1.touch_processed.b3 ≤
            s.touch_processed.b3)) ∧
      (touch_encoder_update_position cfg now s).1.touch_processed.b3 <
        s.touch_raw.b3 + cfg.ENCODER_RESOLUTION ∧
      s.touch_raw.b3 <
        (touch_encoder_update_position cfg now s).1.touch_processed.b3 +
          cfg.ENCODER_RESOLUTION :=
  residual_arith cfg s.touch_processed.b3 s.touch_raw.b3 hres hp hr _
    (update_position_decoded cfg now s hdz)

/-- Witness of `residual_bound`: resolution 1, processed 200, raw 0, where the
quotient 200 does not fit `int8_t`; the new processed position is 0. -/
theorem residual_bound_witness :
    (touch_encoder_update_position cfg_fine 100 (state_touching 200 0)).1.touch_processed.b3 = 0 ∧
      (((state_touching 200 0).touch_processed.b3 ≤
          (touch_encoder_update_position cfg_fine 100 (state_touching 200 0)).1.touch_processed.b3 ∧
          (touch_encoder_update_position cfg_fine 100 (state_touching 200 0)).1.touch_processed.b3 ≤
            (state_touching 200 0).touch_raw.b3) ∨
        ((state_touching 200 0).touch_raw.b3 ≤
          (touch_encoder_update_position cfg_fine 100 (state_touching 200 0)).1.touch_processed.b3 ∧
          (touch_encoder_update_position cfg_fine 100 (state_touching 200 0)).1.touch_processed.b3 ≤
            (state_touching 200 0).touch_processed.b3)) :=
  ⟨by decide,
    (residual_bound cfg_fine 100 (state_touching 200 0) (by decide) (by decide) (by decide)
      (by decide)).1⟩

/-! ## C13: long holds -/

theorem expired_within_range (t0 t1 term : Nat) (h1 : t0 + term ≤ t1)
    (h2 : t1 < t0 + term + 32767) :
    timer_expired (timer_read t1) ((timer_read t0 + term) % 65536) = true := by
  unfold timer_expired timer_read
  rw [decide_eq_true_eq]
  omega

theorem not_expired_beyond_range (t0 t1 term : Nat) (h1 : t0 + term + 32767 ≤ t1)
    (h2 : t1 < t0 + term + 65536) :
    timer_expired (timer_read t1) ((timer_read t0 + term) % 65536) = false := by
  unfold timer_expired timer_read
  rw [decide_eq_false_iff_not]
  omega

/-- Claim C13 fails on the code for a long hold: with `TOUCH_TERM = 10`, a touch
without position change whose rising edge is polled at tick 0 and whose falling
edge is polled at tick 40000 (a hold of 40000 ticks, more than `TOUCH_TERM`)
ends with one call of `touch_encoder_tapped_user`: `(uint16_t)(40000 - 10)` is
not below 32767, so the test commented `Touch held too long, bail` does not
return.  The same touch released at tick 30000 makes no callback. -/
theorem long_hold_taps_after_timer_wrap :
    cfg_small.TOUCH_TERM ≤ 40000 - 0 ∧
    all_due cfg_small state_ready polls_long_hold = true ∧
    timer_expired (timer_read 40000) ((timer_read 0 + cfg_small.TOUCH_TERM) % 65536) = false ∧
    callbacks (run cfg_small state_ready polls_long_hold).2 =
      [Event.touch_encoder_tapped_user 0 1] ∧
    callbacks (run cfg_small state_ready
      [⟨0, some ⟨2, 0, 0, 100⟩⟩, ⟨20000, some ⟨2, 0, 0, 100⟩⟩, ⟨30000, some ⟨0, 0, 0, 100⟩⟩]).2 =
      [] := by
  decide

/-- The release of a touch with no position change (rising edge polled at tick
`t0`, polls resting on the same position, falling edge polled at tick `t1`):
`touch_encoder_tapped_user` is not called exactly when
`timer_expired (t1, t0 + TOUCH_TERM)` holds in 16-bit arithmetic.  A hold of
`TOUCH_TERM` or more and fewer than `TOUCH_TERM + 32767` ticks is not a tap, as
the comment in `touch_encoder_update_tapped` says; a hold of `TOUCH_TERM + 32767`
or more and fewer than `TOUCH_TERM + 65536` ticks escapes the test. -/
theorem long_hold_no_tap_within_timer_range (cfg : Config) (t0 t1 : Nat) (r0 r1 : Regs)
    (mids : List Poll) (s : State)
    (hdue0 : poll_due cfg t0 s = true)
    (hclear : s.touch_processed.b0 &&& SLIDER_BIT = 0) (hset : r0.b0 &&& SLIDER_BIT ≠ 0)
    (hmid : stationary r0.b3 mids = true)
    (hdue1 : poll_due cfg t1 (run cfg s (Poll.mk t0 (some r0) :: mids)).1 = true)
    (hfall : r1.b0 &&& SLIDER_BIT = 0) :
    (tap_calls (touch_encoder_update cfg t1 (some r1)
          (run cfg s (Poll.mk t0 (some r0) :: mids)).1).2 = 0 ↔
        timer_expired (timer_read t1) ((timer_read t0 + cfg.TOUCH_TERM) % 65536) = true) ∧
      (t0 + cfg.TOUCH_TERM ≤ t1 → t1 < t0 + cfg.TOUCH_TERM + 32767 →
        tap_calls (touch_encoder_update cfg t1 (some r1)
          (run cfg s (Poll.mk t0 (some r0) :: mids)).1).2 = 0) ∧
      (t0 + cfg.TOUCH_TERM + 32767 ≤ t1 → t1 < t0 + cfg.TOUCH_TERM + 65536 →
        tap_calls (touch_encoder_update cfg t1 (some r1)
          (run cfg s (Poll.mk t0 (some r0) :: mids)).1).2 = 1) := by
  have h := resting_touch_tap cfg t0 t1 r0 r1 mids s hdue0 hclear hset hmid hdue1 hfall
  refine ⟨?_, ?_, ?_⟩
  · rw [h]
    cases timer_expired (timer_read t1) ((timer_read t0 + cfg.TOUCH_TERM) % 65536) <;> simp
  · intro h1 h2
    rw [h, expired_within_range t0 t1 cfg.TOUCH_TERM h1 h2]
    rfl
  · intro h1 h2
    rw [h, not_expired_beyond_range t0 t1 cfg.TOUCH_TERM h1 h2]
    rfl

/-- An instance of `long_hold_no_tap_within_timer_range`: `TOUCH_TERM = 10`, rising
edge at tick 0, a resting poll at tick 20000, release at tick 30000. -/
theorem long_hold_no_tap_within_timer_range_witness :
    tap_calls (touch_encoder_update cfg_small 30000 (some ⟨0, 0, 0, 100⟩)
      (run cfg_small state_ready
        (Poll.mk 0 (some ⟨2, 0, 0, 100⟩) :: [⟨20000, some ⟨2, 0, 0, 100⟩⟩])).1).2 = 0 :=
  (long_hold_no_tap_within_timer_range cfg_small 0 30000 ⟨2, 0, 0, 100⟩ ⟨0, 0, 0, 100⟩
    [⟨20000, some ⟨2, 0, 0, 100⟩⟩] state_ready (by decide) (by decide) (by decide) (by decide)
    (by decide) (by decide)).2.1 (by decide) (by decide)

/-! ## C17: a touch is not both a rotation and a tap -/

theorem update_position_timer (cfg : Config) (now : Nat) (s : State) :
    ((touch_encoder_update_position cfg now s).1.touch_timer = s.touch_timer ∨
        (touch_encoder_update_position cfg now s).1.touch_timer = timer_read now) ∧
      (rotations (touch_encoder_update_position cfg now s).2 ≠ [] →
        timer_expired (timer_read now) s.touch_timer = true ∨
          (touch_encoder_update_position cfg now s).1.touch_timer = timer_read now) ∧
      (timer_expired (timer_read now) s.touch_timer = false →
        dead_zone_holds cfg now s = false →
        (touch_encoder_update_position cfg now s).1.touch_timer = timer_read now) := by
  unfold touch_encoder_update_position dead_zone_holds
  cases hx : timer_expired (timer_read now) s.touch_timer
  · by_cases hd : (((s.touch_raw.b3 : Int) - (s.touch_processed.b3 : Int)) % 256) ≤
        (cfg.TOUCH_DEADZONE : Int)
    · simp [hd, rotations]
    · simp only [hd, Bool.not_false, true_and, and_false, ↓reduceIte]
      split <;> simp
  · simp only [Bool.not_true, Bool.false_eq_true, false_and, ↓reduceIte]
    split <;> simp

theorem position_change_timer (cfg : Config) (now : Nat) (s : State) :
    ((position_change cfg now s).1.touch_timer = s.touch_timer ∨
        (position_change cfg now s).1.touch_timer = timer_read now) ∧
      (rotations (position_change cfg now s).2 ≠ [] →
        timer_expired (timer_read now) s.touch_timer = true ∨
          (position_change cfg now s).1.touch_timer = timer_read now) ∧
      (position_path_entered s = true →
        timer_expired (timer_read now) s.touch_timer = false →
        dead_zone_holds cfg now s = false →
        (position_change cfg now s).1.touch_timer = timer_read now) := by
  unfold position_change position_path_entered
  by_cases he : s.touch_raw.b0 &&& SLIDER_BIT ≠ 0 ∧ s.touch_processed.b3 ≠ s.touch_raw.b3
  · rw [if_pos he]
    obtain ⟨h1, h2, h3⟩ := update_position_timer cfg now s
    exact ⟨h1, h2, fun _ => h3⟩
  · rw [if_neg he, decide_eq_false he]
    simp [rotations]

/-- One poll during a touch: the slider bit stays set on both sides, the gesture
timer is kept or set to the tick of the poll, a rotation callback needs an
expired timer or sets the timer, and an accepted movement sets it. -/
theorem touched_poll (cfg : Config) (q : Poll) (s : State) (hs : Touched s)
    (hq : touching [q] = true) :
    Touched (touch_encoder_update cfg q.now q.rd s).1 ∧
      ((touch_encoder_update cfg q.now q.rd s).1.touch_timer = s.touch_timer ∨
        (touch_encoder_update cfg q.now q.rd s).1.touch_timer = timer_read q.now) ∧
      (rotations (touch_encoder_update cfg q.now q.rd s).2 ≠ [] →
        timer_expired (timer_read q.now) s.touch_timer = true ∨
          (touch_encoder_update cfg q.now q.rd s).1.touch_timer = timer_read q.now) ∧
      (accepts_in_grace cfg q s = true →
        (touch_encoder_update cfg q.now q.rd s).1.touch_timer = timer_read q.now) := by
  obtain ⟨hs1, hs2⟩ := hs
  have hseen : (raw_seen q.rd s).b0 &&& SLIDER_BIT ≠ 0 := by
    cases hrd : q.rd with
    | none =>
      simp only [raw_seen, read_register, i2c_readReg]
      rw [hs1]
      exact hs2
    | some r =>
      simp only [touching, List.all_cons, List.all_nil, Bool.and_true, hrd,
        decide_eq_true_eq] at hq
      simpa [raw_seen, read_register, i2c_readReg] using hq
  unfold accepts_in_grace
  cases hdue : poll_due cfg q.now s
  · unfold touch_encoder_update
    simp [hdue, rotations, Touched, hs1, hs2]
  · obtain ⟨r1, r2, r3, -, -, -, -, -⟩ := poll_read_state cfg q.now q.rd s
    have hbit : (poll_read cfg q.now q.rd s).1.touch_raw.b0 &&& SLIDER_BIT =
        (poll_read cfg q.now q.rd s).1.touch_processed.b0 &&& SLIDER_BIT := by
      rw [r1, r2]
      rcases and_slider_cases (raw_seen q.rd s).b0 with h | h
      · exact absurd h hseen
      · rcases and_slider_cases s.touch_processed.b0 with h2 | h2
        · exact absurd h2 hs2
        · rw [h, h2]
    obtain ⟨hst, hcb⟩ := status_change_slider_kept cfg q.now (poll_read cfg q.now q.rd s).1 hbit
    have hent : (entry_state cfg q.now q.rd s).touch_timer = s.touch_timer := by
      unfold entry_state
      rw [hst]
      exact r3
    have hu : touch_encoder_update cfg q.now q.rd s =
        ((position_change cfg q.now (entry_state cfg q.now q.rd s)).1,
          (poll_read cfg q.now q.rd s).2 ++
            (status_change cfg q.now (poll_read cfg q.now q.rd s).1).2 ++
            (position_change cfg q.now (entry_state cfg q.now q.rd s)).2) := by
      unfold touch_encoder_update
      rw [if_pos hdue]
      rfl
    have hrot : rotations (touch_encoder_update cfg q.now q.rd s).2 =
        rotations (position_change cfg q.now (entry_state cfg q.now q.rd s)).2 := by
      rw [hu]
      simp only [rotations_append]
      rw [rotations_of_no_callbacks _ (callbacks_poll_read cfg q.now q.rd s),
        rotations_of_no_callbacks _ hcb]
      rfl
    obtain ⟨p1, p2, p3⟩ := position_change_timer cfg q.now (entry_state cfg q.now q.rd s)
    rw [hent] at p1 p2 p3
    have hfst : (touch_encoder_update cfg q.now q.rd s).1 =
        (position_change cfg q.now (entry_state cfg q.now q.rd s)).1 := by
      rw [hu]
    obtain ⟨f1, f2, -, -, -, -⟩ := poll_body_frame cfg q.now q.rd s
    have hbody : (touch_encoder_update cfg q.now q.rd s).1 = (poll_body cfg q.now q.rd s).1 := by
      unfold touch_encoder_update
      rw [if_pos hdue]
    refine ⟨⟨?_, ?_⟩, ?_, ?_, ?_⟩
    · rw [hbody, f1, f2]
    · rw [hbody, f2]
      exact hseen
    · rw [hfst]
      exact p1
    · rw [hrot, hfst]
      exact p2
    · rw [hfst, hent]
      intro ha
      simp only [Bool.true_and, Bool.and_eq_true, Bool.not_eq_true'] at ha
      exact p3 ha.1.1 ha.1.2 ha.2

/-- Within 32767 ticks of the rising edge, the armed deadline reads as expired
only once `TOUCH_TERM` ticks have passed. -/
theorem expired_after_term (t0 t term : Nat) (hterm : term ≤ 32769) (h0 : t0 ≤ t)
    (h1 : t < t0 + 32767)
    (hx : timer_expired (timer_read t) ((timer_read t0 + term) % 65536) = true) :
    t0 + term ≤ t := by
  unfold timer_expired timer_read at hx
  rw [decide_eq_true_eq] at hx
  omega

theorem lapsed_expired (t0 t1 : Nat) (s : State) (h : Lapsed t0 t1 s) (h1 : t1 < t0 + 32767) :
    timer_expired (timer_read t1) s.touch_timer = true := by
  obtain ⟨c, hc0, hc1, hc⟩ := h
  rw [hc]
  unfold timer_expired timer_read
  rw [decide_eq_true_eq]
  omega

theorem lapsed_poll (cfg : Config) (t0 t1 : Nat) (q : Poll) (s : State) (hs : Touched s)
    (hl : Lapsed t0 t1 s) (hq : touching [q] = true) (ht : ticks_within t0 t1 [q] = true) :
    Touched (touch_encoder_update cfg q.now q.rd s).1 ∧
      Lapsed t0 t1 (touch_encoder_update cfg q.now q.rd s).1 := by
  obtain ⟨h1, h2, -, -⟩ := touched_poll cfg q s hs hq
  refine ⟨h1, ?_⟩
  rcases h2 with h | h
  · obtain ⟨c, hc0, hc1, hc⟩ := hl
    exact ⟨c, hc0, hc1, h.trans hc⟩
  · simp only [ticks_within, List.all_cons, List.all_nil, Bool.and_true,
      decide_eq_true_eq] at ht
    exact ⟨q.now, ht.1, ht.2, h⟩

theorem lapsed_run (cfg : Config) (t0 t1 : Nat) (polls : List Poll) :
    ∀ s : State, Touched s → Lapsed t0 t1 s → touching polls = true →
      ticks_within t0 t1 polls = true →
      Touched (run cfg s polls).1 ∧ Lapsed t0 t1 (run cfg s polls).1 := by
  induction polls with
  | nil =>
    intro s hs hl _ _
    exact ⟨hs, hl⟩
  | cons q qs ih =>
    intro s hs hl hq ht
    have hq1 : touching [q] = true ∧ touching qs = true := by
      simpa [touching] using hq
    have ht1 : ticks_within t0 t1 [q] = true ∧ ticks_within t0 t1 qs = true := by
      simpa [ticks_within] using ht
    obtain ⟨a, b⟩ := lapsed_poll cfg t0 t1 q s hs hl hq1.1 ht1.1
    have := ih (touch_encoder_update cfg q.now q.rd s).1 a b hq1.2 ht1.2
    simpa [run] using this

theorem armed_run (cfg : Config) (t0 t1 : Nat) (hterm : cfg.TOUCH_TERM ≤ 32769)
    (hshort : t1 < t0 + 32767) (polls : List Poll) :
    ∀ s : State, Touched s → s.touch_timer = (timer_read t0 + cfg.TOUCH_TERM) % 65536 →
      touching polls = true → ticks_within t0 t1 polls = true →
      (rotations (run cfg s polls).2 ≠ [] ∨ accepted_in_grace cfg s polls = true) →
      Touched (run cfg s polls).1 ∧ Lapsed t0 t1 (run cfg s polls).1 := by
  induction polls with
  | nil =>
    intro s _ _ _ _ h
    simp [run, rotations, accepted_in_grace] at h
  | cons q qs ih =>
    intro s hs harm hq ht h
    have hq1 : touching [q] = true ∧ touching qs = true := by
      simpa [touching] using hq
    have ht1 : ticks_within t0 t1 [q] = true ∧ ticks_within t0 t1 qs = true := by
      simpa [ticks_within] using ht
    have htick : t0 ≤ q.now ∧ q.now ≤ t1 := by
      simpa [ticks_within] using ht1.1
    obtain ⟨a, b, c, d⟩ := touched_poll cfg q s hs hq1.1
    have hrun : run cfg s (q :: qs) =
        ((run cfg (touch_encoder_update cfg q.now q.rd s).1 qs).1,
          (touch_encoder_update cfg q.now q.rd s).2 ++
            (run cfg (touch_encoder_update cfg q.now q.rd s).1 qs).2) := rfl
    rw [hrun]
    simp only
    have hnow : Lapsed t0 t1 (touch_encoder_update cfg q.now q.rd s).1 →
        Touched (run cfg (touch_encoder_update cfg q.now q.rd s).1 qs).1 ∧
          Lapsed t0 t1 (run cfg (touch_encoder_update cfg q.now q.rd s).1 qs).1 :=
      fun hl => lapsed_run cfg t0 t1 qs _ a hl hq1.2 ht1.2
    have hset : (touch_encoder_update cfg q.now q.rd s).1.touch_timer = timer_read q.now →
        Lapsed t0 t1 (touch_encoder_update cfg q.now q.rd s).1 :=
      fun e => ⟨q.now, htick.1, htick.2, e⟩
    rcases b with hkeep | hnew
    · by_cases hr : rotations (touch_encoder_update cfg q.now q.rd s).2 ≠ []
      · rcases c hr with hx | hx
        · rw [harm] at hx
          have := expired_after_term t0 q.now cfg.TOUCH_TERM hterm htick.1
            (Nat.lt_of_le_of_lt htick.2 hshort) hx
          refine hnow ⟨t0 + cfg.TOUCH_TERM, Nat.le_add_right _ _, Nat.le_trans this htick.2, ?_⟩
          rw [hkeep, harm]
          unfold timer_read
          omega
        · exact hnow (hset hx)
      · cases hacc : accepts_in_grace cfg q s
        · refine ih _ a (hkeep.trans harm) hq1.2 ht1.2 ?_
          rw [hrun] at h
          simp only [rotations_append, accepted_in_grace, hacc, Bool.false_or] at h
          rw [not_not.mp hr] at h
          simpa using h
        · exact hnow (hset (d hacc))
    · exact hnow (hset hnew)

/-- Claim C17: a touch is never both a rotation and a tap.  For every touch
lasting fewer than 32767 ticks (rising edge seen by an executed poll at tick `t0`,
polls at ticks between `t0` and `t1` whose successful reads keep the slider bit
set, release polled at tick `t1 < t0 + 32767`), with `TOUCH_TERM` at most 32769:
if a `touch_encoder_update_user` call fired during the touch, or a poll accepted
a movement beyond `TOUCH_DEADZONE` during the grace window, then the poll at
tick `t1` does not call `touch_encoder_tapped_user`. -/
theorem rotation_excludes_tap (cfg : Config) (t0 t1 : Nat) (r0 : Regs) (rd1 : Option Regs)
    (mids : List Poll) (s : State)
    (hterm : cfg.TOUCH_TERM ≤ 32769)
    (hdue0 : poll_due cfg t0 s = true)
    (hclear : s.touch_processed.b0 &&& SLIDER_BIT = 0) (hset : r0.b0 &&& SLIDER_BIT ≠ 0)
    (htouch : touching mids = true) (hticks : ticks_within t0 t1 mids = true)
    (hshort : t1 < t0 + 32767)
    (hrot : rotations (run cfg (touch_encoder_update cfg t0 (some r0) s).1 mids).2 ≠ [] ∨
      accepted_in_grace cfg (touch_encoder_update cfg t0 (some r0) s).1 mids = true) :
    tap_calls (touch_encoder_update cfg t1 rd1
      (run cfg (touch_encoder_update cfg t0 (some r0) s).1 mids).1).2 = 0 := by
  have hseen : (raw_seen (some r0) s) = r0 := rfl
  obtain ⟨e1, -, -⟩ := rising_edge_poll cfg t0 (some r0) s hdue0 hclear (by rw [hseen]; exact hset)
  have hT : Touched (touch_encoder_update cfg t0 (some r0) s).1 := by
    obtain ⟨f1, f2, -, -, -, -⟩ := poll_body_frame cfg t0 (some r0) s
    have hbody : (touch_encoder_update cfg t0 (some r0) s).1 =
        (poll_body cfg t0 (some r0) s).1 := by
      unfold touch_encoder_update
      rw [if_pos hdue0]
    unfold Touched
    rw [hbody, f1, f2, hseen]
    exact ⟨rfl, hset⟩
  obtain ⟨-, hl⟩ := armed_run cfg t0 t1 hterm hshort mids _ hT e1 htouch hticks hrot
  rw [tap_calls_update, lapsed_expired t0 t1 _ hl hshort]
  simp

/-- Witness of `rotation_excludes_tap`: `TOUCH_TERM = 10`, `ENCODER_RESOLUTION = 4`;
rising edge at tick 0 on position 100, the finger read at 120 at ticks 20 and 30
(five rotation callbacks), release polled at tick 40. -/
theorem rotation_excludes_tap_witness :
    rotations (run cfg_small (touch_encoder_update cfg_small 0 (some ⟨2, 0, 0, 100⟩)
        state_ready).1 polls_rotate_release).2 ≠ [] ∧
      tap_calls (touch_encoder_update cfg_small 40 (some ⟨0, 0, 0, 120⟩)
        (run cfg_small (touch_encoder_update cfg_small 0 (some ⟨2, 0, 0, 100⟩)
          state_ready).1 polls_rotate_release).1).2 = 0 :=
  ⟨by decide,
    rotation_excludes_tap cfg_small 0 40 ⟨2, 0, 0, 100⟩ (some ⟨0, 0, 0, 120⟩)
      polls_rotate_release state_ready (by decide) (by decide) (by decide) (by decide)
      (by decide) (by decide) (by decide) (Or.inl (by decide))⟩

/-- The grace-window case of `rotation_excludes_tap` on a trace: rising edge at
tick 0 on position 100, at tick 3 the finger is read at 103 (beyond the dead
zone of 2, less than one step of 4): no rotation callback, the gesture timer
is set to 3, and the release at tick 5 is not a tap. -/
theorem grace_movement_cancels_tap :
    rotations (run cfg_small (touch_encoder_update cfg_small 0 (some ⟨2, 0, 0, 100⟩)
        state_ready).1 [⟨3, some ⟨2, 0, 0, 103⟩⟩]).2 = [] ∧
      accepted_in_grace cfg_small (touch_encoder_update cfg_small 0 (some ⟨2, 0, 0, 100⟩)
        state_ready).1 [⟨3, some ⟨2, 0, 0, 103⟩⟩] = true ∧
      callbacks (run cfg_small state_ready
        [⟨0, some ⟨2, 0, 0, 100⟩⟩, ⟨3, some ⟨2, 0, 0, 103⟩⟩, ⟨5, some ⟨0, 0, 0, 103⟩⟩]).2 = [] := by
  decide

end TouchEncoder
